import Mathlib

/-!
Verification of the TarkovStatsWeb statistics-derivation engine, selectors and
parse worker pool, as a shallow embedding of the TypeScript sources
(`src/lib/logs/analytics.ts`, `src/lib/logs/selectors.ts`,
`src/lib/ingest/parseWorkerPool.ts`).

JavaScript runtime values appearing in the untyped `fields` bag of a log event
are modelled by `JSValue`.  Numbers are exact rationals plus an explicit `nan`
constructor (`typeof NaN === "number"` in JS, so NaN flows through the
`typeof x === "number"` guards of the source).  JS exceptions (the engine can
throw a `TypeError` on some malformed fields, see `accumulateQuest`) are
modelled with `Except String`.
-/

set_option linter.unusedVariables false

/-- A JavaScript runtime value, as can appear in an event's `fields` bag. -/
inductive JSValue where
  | undef
  | null
  | bool (b : Bool)
  | num (q : ℚ)
  | nan
  | str (s : String)
  | arr (xs : List JSValue)
  | obj (kvs : List (String × JSValue))

/-- A JavaScript number: an exact rational or NaN. -/
inductive JSNumber where
  | nan
  | val (q : ℚ)
deriving DecidableEq, Repr

/-- JS truthiness of a value (`if (v)`). -/
def jsTruthy : JSValue → Bool
  | .undef => false
  | .null => false
  | .bool b => b
  | .num q => q != 0
  | .nan => false
  | .str s => !s.isEmpty
  | .arr _ => true
  | .obj _ => true

-- JS `ToString` of a value; inside an array join, `null`/`undefined`
-- elements become the empty string (`Array.prototype.toString`).
mutual

def jsToString : JSValue → String
  | .undef => "undefined"
  | .null => "null"
  | .bool b => if b then "true" else "false"
  | .num q =>
      -- JS decimal formatting of non-integral numbers is abstracted as
      -- num/den; no claim inspects a map key produced from a non-integral
      -- number.
      if q.den = 1 then toString q.num else toString q.num ++ "/" ++ toString q.den
  | .nan => "NaN"
  | .str s => s
  | .arr xs => String.intercalate "," (jsToStringArr xs)
  | .obj _ => "[object Object]"

def jsToStringArr : List JSValue → List String
  | [] => []
  | v :: vs =>
      (match v with
       | .undef => ""
       | .null => ""
       | w => jsToString w) :: jsToStringArr vs

end

/-- `typeof v === "number"` test, returning the number when it is one. -/
def jsNumberOf : JSValue → Option JSNumber
  | .num q => some (.val q)
  | .nan => some .nan
  | _ => none

def jsnAdd : JSNumber → JSNumber → JSNumber
  | .val x, .val y => .val (x + y)
  | _, _ => .nan

def jsnSub : JSNumber → JSNumber → JSNumber
  | .val x, .val y => .val (x - y)
  | _, _ => .nan

/-- JS division on numbers.  Division by zero yields Infinity in JS; it is
unreachable in this development (the engine only ever divides by a strictly
positive sample count), so it is mapped to `nan`. -/
def jsnDiv : JSNumber → JSNumber → JSNumber
  | .val x, .val y => if y = 0 then .nan else .val (x / y)
  | _, _ => .nan

/-- `ToNumber` coercion of a primitive, as used by the `+` operator when
neither operand is string-like.  String operands never reach this function
(they take the concatenation branch of `jsAdd`). -/
def jsToNumber : JSValue → JSNumber
  | .num q => .val q
  | .nan => .nan
  | .bool b => .val (if b then 1 else 0)
  | .null => .val 0
  | .undef => .nan
  | .str _ => .nan
  | .arr _ => .nan
  | .obj _ => .nan

/-- Does `ToPrimitive` of the value produce a string (so that `+` becomes
concatenation)? -/
def jsStringish : JSValue → Bool
  | .str _ => true
  | .arr _ => true
  | .obj _ => true
  | _ => false

/-- The JS `+` operator on the values that can reach the quest-reward
accumulation. -/
def jsAdd (a b : JSValue) : JSValue :=
  if jsStringish a || jsStringish b then .str (jsToString a ++ jsToString b)
  else
    match jsnAdd (jsToNumber a) (jsToNumber b) with
    | .val q => .num q
    | .nan => .nan

/-- `Object.entries` on the values that can reach it (truthy values only:
the source guards with `if (rewardItemsCounts)`).  Primitives are boxed:
numbers and booleans have no own enumerable properties, strings enumerate
their characters. -/
def jsEntries : JSValue → List (String × JSValue)
  | .obj kvs => kvs
  | .arr xs => (xs.enum.map (fun p => (toString p.1, p.2)))
  | .str s => (s.toList.enum.map (fun p => (toString p.1, JSValue.str p.2.toString)))
  | _ => []

/-- `for (const x of v)`: arrays and strings are iterable, any other truthy
value throws a `TypeError`. -/
def jsIterate : JSValue → Except String (List JSValue)
  | .arr xs => .ok xs
  | .str s => .ok (s.toList.map (fun c => JSValue.str c.toString))
  | _ => .error "TypeError: value is not iterable"

/-- Substring test on character lists. -/
def subList (needle hay : List Char) : Bool :=
  (List.range (hay.length + 1)).any (fun i => needle.isPrefixOf (hay.drop i))

/-- `String.prototype.includes`. -/
def strContains (hay needle : String) : Bool :=
  subList needle.toList hay.toList

/-- ASCII case-folding model of `String.prototype.toLowerCase` (the status
sources and messages compared by the engine are ASCII). -/
def strToLower (s : String) : String := String.mk (s.toList.map Char.toLower)

/-- JS truthiness of an optional string (absent, or present and empty,
is falsy). -/
def optStrTruthy : Option String → Bool
  | none => false
  | some s => !s.isEmpty

/-- Association-list update with JS object-key semantics: an existing key
keeps its position, a new key is appended (JS objects preserve insertion
order for string keys). -/
def setAssoc {α : Type} : List (String × α) → String → α → List (String × α)
  | [], k, v => [(k, v)]
  | (k', v') :: rest, k, v =>
      if k' == k then (k, v) :: rest else (k', v') :: setAssoc rest k v

/-- `(map[k] ?? 0) + 1` on a counter map. -/
def bump (m : List (String × ℕ)) (k : String) : List (String × ℕ) :=
  setAssoc m k ((List.lookup k m).getD 0 + 1)

theorem lookup_setAssoc_self {α : Type} (l : List (String × α)) (k : String) (v : α) :
    List.lookup k (setAssoc l k v) = some v := by
  induction l with
  | nil => simp [setAssoc, List.lookup]
  | cons hd tl ih =>
      obtain ⟨k', v'⟩ := hd
      by_cases h : k' = k
      · simp [setAssoc, h, List.lookup]
      · have h' : (k' == k) = false := by simp [h]
        have h'' : (k == k') = false := by simp [Ne.symm h]
        simp [setAssoc, h', List.lookup, h'', ih]

/-! ## Event and result model (`src/lib/logs/types.ts`) -/

/-- One parsed log event (`AnyLogEvent`): common fields plus the open
`fields` bag.  `message` is a plain string per the event type; `level`,
`eventFamily` and `fields` are optional. -/
structure LogEvent where
  logType : String
  eventFamily : Option String
  level : Option String
  message : String
  fields : Option (List (String × JSValue))

/-- `fields?.k`: `undefined` when the bag is absent or the key is missing. -/
def getField (e : LogEvent) (k : String) : JSValue :=
  match e.fields with
  | none => .undef
  | some kvs => (List.lookup k kvs).getD JSValue.undef

/-- `ParsedLogResult.meta`.  The source field `sessionPrefix` is named
`sessionPref` here. -/
structure LogMeta where
  sessionPref : Option String
  buildVersion : Option String
  earliestTimestamp : Option String
  latestTimestamp : Option String

/-- One parsed log file (`ParsedLogResult`). -/
structure ParsedLogResult where
  filePath : Option String
  logType : String
  events : List LogEvent
  meta : LogMeta

/-! ## Statistics aggregates (`src/lib/logs/analytics.ts`) -/

structure LevelCounts where
  events : ℕ
  errors : ℕ
  warnings : ℕ
deriving DecidableEq, Repr

structure SessionSummary where
  id : String
  buildVersion : Option String
  earliestTimestamp : Option String
  latestTimestamp : Option String
  logTypes : List String
  totals : LevelCounts
deriving DecidableEq, Repr

structure BackendStats where
  totalRequests : ℕ
  totalResponses : ℕ
  totalErrors : ℕ
  retries : ℕ
  byStatusCode : List (String × ℕ)
  byEndpoint : List (String × ℕ)
deriving DecidableEq, Repr

structure CacheStats where
  hits : ℕ
  misses : ℕ
deriving DecidableEq, Repr

structure InventoryStats where
  totalRejections : ℕ
  byOperation : List (String × ℕ)
  byCode : List (String × ℕ)
  items : List (String × ℕ)
deriving DecidableEq, Repr

structure AddrStats where
  connect : ℕ
  disconnect : ℕ
  timeout : ℕ
deriving DecidableEq, Repr

structure NetworkMetrics where
  samples : ℕ
  rttSamples : Option ℕ
  rttAvg : Option JSNumber
  rpiAvg : Option JSNumber
  ludAvg : Option JSNumber
  totalPacketsLost : Option JSNumber
  totalPacketsSent : Option JSNumber
  totalPacketsReceived : Option JSNumber
deriving DecidableEq, Repr

structure NetworkStats where
  connections : ℕ
  disconnects : ℕ
  timeouts : ℕ
  byAddress : List (String × AddrStats)
  metrics : NetworkMetrics
deriving DecidableEq, Repr

structure PushStats where
  connections : ℕ
  drops : ℕ
  notifications : ℕ
deriving DecidableEq, Repr

structure AudioStats where
  initSuccess : ℕ
  occlusionErrors : ℕ
deriving DecidableEq, Repr

structure ErrorStats where
  totals : ℕ
  byFamily : List (String × ℕ)
deriving DecidableEq, Repr

structure MatchmakingStats where
  groupIds : List String
  events : List LogEvent

structure AntiCheatStats where
  initLines : ℕ
  errors : ℕ
  lastStatus : Option String
deriving DecidableEq, Repr

structure ResolvedEntity where
  id : String
  kind : String
deriving DecidableEq, Repr

structure QuestStat where
  id : String
  status : String
  relatedEvents : List LogEvent
  traderId : Option String
  traderName : Option String
  rewardRubles : Option JSNumber
  rewardItems : Option (List (String × JSValue))

structure Statistics where
  sessions : List SessionSummary
  backend : BackendStats
  cache : CacheStats
  inventory : InventoryStats
  network : NetworkStats
  push : PushStats
  audio : AudioStats
  errors : ErrorStats
  matchmaking : MatchmakingStats
  anticheat : AntiCheatStats
  quests : List QuestStat
  traders : List (String × ResolvedEntity)
  items : List (String × ResolvedEntity)

/-! ## Session building (`buildSessions`, `countLevels`,
`extractSessionPrefix` — the latter is named `extractSessionPref` here) -/

/-- `countLevels`: fold over the events counting errors and warnings. -/
def countLevels (events : List LogEvent) : LevelCounts :=
  let z := events.foldl (fun (p : ℕ × ℕ) e =>
    ((if e.level == some "Error" then p.1 + 1 else p.1),
     (if e.level == some "Warn" || e.level == some "Warning" then p.2 + 1 else p.2)))
    (0, 0)
  { events := events.length, errors := z.1, warnings := z.2 }

/-- Match the session regex `log_\d{4}\.\d{2}\.\d{2}_\d{2}-\d{2}-\d{2}[^/\\]*`
at the head of `cs`; returns the matched characters. -/
def matchSessionAt (cs : List Char) : Option (List Char) :=
  match cs with
  | 'l' :: 'o' :: 'g' :: '_' :: rest =>
      let dig := fun (n : ℕ) (l : List Char) =>
        if (l.take n).length = n && (l.take n).all Char.isDigit
        then some (l.take n, l.drop n) else none
      let lit := fun (c : Char) (l : List Char) =>
        match l with
        | c' :: tl => if c' = c then some tl else none
        | [] => none
      match dig 4 rest with
      | none => none
      | some (y, r1) =>
        match lit '.' r1 with
        | none => none
        | some r2 =>
          match dig 2 r2 with
          | none => none
          | some (mo, r3) =>
            match lit '.' r3 with
            | none => none
            | some r4 =>
              match dig 2 r4 with
              | none => none
              | some (d, r5) =>
                match lit '_' r5 with
                | none => none
                | some r6 =>
                  match dig 2 r6 with
                  | none => none
                  | some (h, r7) =>
                    match lit '-' r7 with
                    | none => none
                    | some r8 =>
                      match dig 2 r8 with
                      | none => none
                      | some (mi, r9) =>
                        match lit '-' r9 with
                        | none => none
                        | some r10 =>
                          match dig 2 r10 with
                          | none => none
                          | some (s, r11) =>
                            let tail := r11.takeWhile (fun c => c ≠ '/' && c ≠ '\\')
                            some (['l', 'o', 'g', '_'] ++ y ++ ['.'] ++ mo ++ ['.'] ++ d
                              ++ ['_'] ++ h ++ ['-'] ++ mi ++ ['-'] ++ s ++ tail)
  | _ => none

/-- Leftmost match of the session pattern in the character list. -/
def scanSession : List Char → Option (List Char)
  | [] => none
  | c :: tl =>
      match matchSessionAt (c :: tl) with
      | some m => some m
      | none => scanSession tl

/-- `extractSessionPrefix` from the source: `if (!filePath) return null`
(empty string is falsy), then the first regex match. -/
def extractSessionPref (filePath : Option String) : Option String :=
  match filePath with
  | none => none
  | some s => if s.isEmpty then none else (scanSession s.toList).map (fun l => String.mk l)

/-- JS string `<` comparison used on ISO timestamp strings. -/
def strLt (a b : String) : Bool := decide (a < b)

/-- `buildSessions`: insertion-ordered map from session id to summary. -/
def buildSessions (results : List ParsedLogResult) : List SessionSummary :=
  (results.foldl (fun (m : List (String × SessionSummary)) res =>
    let sessionId :=
      match res.meta.sessionPref with
      | some s => s
      | none => (extractSessionPref res.filePath).getD "unknown"
    let counts := countLevels res.events
    match List.lookup sessionId m with
    | none =>
        m ++ [(sessionId,
          { id := sessionId
            buildVersion := res.meta.buildVersion
            earliestTimestamp := res.meta.earliestTimestamp
            latestTimestamp := res.meta.latestTimestamp
            logTypes := [res.logType]
            totals := counts })]
    | some ex =>
        let ex := { ex with totals :=
          { events := ex.totals.events + counts.events
            errors := ex.totals.errors + counts.errors
            warnings := ex.totals.warnings + counts.warnings } }
        let ex := if ex.logTypes.contains res.logType then ex
          else { ex with logTypes := ex.logTypes ++ [res.logType] }
        let ex :=
          match res.meta.earliestTimestamp with
          | some t =>
              if !t.isEmpty && (!optStrTruthy ex.earliestTimestamp ||
                  (match ex.earliestTimestamp with
                   | some t0 => strLt t t0
                   | none => true))
              then { ex with earliestTimestamp := some t } else ex
          | none => ex
        let ex :=
          match res.meta.latestTimestamp with
          | some t =>
              if !t.isEmpty && (!optStrTruthy ex.latestTimestamp ||
                  (match ex.latestTimestamp with
                   | some t0 => strLt t0 t
                   | none => true))
              then { ex with latestTimestamp := some t } else ex
          | none => ex
        let ex :=
          if !optStrTruthy ex.buildVersion && optStrTruthy res.meta.buildVersion
          then { ex with buildVersion := res.meta.buildVersion } else ex
        setAssoc m sessionId ex) []).map (fun p => p.2)

/-! ## Per-category accumulators (`src/lib/logs/analytics.ts`) -/

def accumulateBackend (e : LogEvent) (b : BackendStats) : BackendStats :=
  if e.logType != "backend" then b else
  let url := getField e "url"
  let code := getField e "responseCode"
  match e.eventFamily with
  | some "request" =>
      let b := { b with totalRequests := b.totalRequests + 1 }
      if jsTruthy url then { b with byEndpoint := bump b.byEndpoint (jsToString url) } else b
  | some "response" =>
      let b := { b with totalResponses := b.totalResponses + 1 }
      let b := if jsTruthy code then { b with byStatusCode := bump b.byStatusCode (jsToString code) } else b
      if jsTruthy url then { b with byEndpoint := bump b.byEndpoint (jsToString url) } else b
  | some "transport_error" =>
      let b := { b with totalErrors := b.totalErrors + 1 }
      if jsTruthy code then { b with byStatusCode := bump b.byStatusCode (jsToString code) } else b
  | some "server_exception" =>
      let b := { b with totalErrors := b.totalErrors + 1 }
      if jsTruthy code then { b with byStatusCode := bump b.byStatusCode (jsToString code) } else b
  | some "retry" => { b with retries := b.retries + 1 }
  | _ => b

def accumulateCache (e : LogEvent) (cache : CacheStats) : CacheStats :=
  if e.logType != "backendCache" then cache else
  match getField e "cacheHit" with
  | .bool false => { cache with misses := cache.misses + 1 }
  | _ => { cache with hits := cache.hits + 1 }

def upsertResolved (target : List (String × ResolvedEntity)) (id : String) (kind : String) :
    List (String × ResolvedEntity) :=
  match List.lookup id target with
  | some _ => target
  | none => target ++ [(id, { id := id, kind := kind })]

def accumulateInventory (e : LogEvent) (inventory : InventoryStats)
    (items : List (String × ResolvedEntity)) :
    InventoryStats × List (String × ResolvedEntity) :=
  if e.logType != "inventory" then (inventory, items) else
  let inventory := { inventory with totalRejections := inventory.totalRejections + 1 }
  let op := getField e "operationType"
  let code := getField e "code"
  let itemId := getField e "itemId"
  let inventory := if jsTruthy op
    then { inventory with byOperation := bump inventory.byOperation (jsToString op) }
    else inventory
  let inventory :=
    match code with
    | .undef => inventory
    | c => { inventory with byCode := bump inventory.byCode (jsToString c) }
  if jsTruthy itemId then
    let iid := jsToString itemId
    ({ inventory with items := bump inventory.items iid }, upsertResolved items iid "item")
  else (inventory, items)

def accumulateNetwork (e : LogEvent) (network : NetworkStats) : NetworkStats :=
  let network :=
    if e.logType == "network-connection" then
      let addr :=
        match getField e "address" with
        | .undef => "unknown"
        | .null => "unknown"
        | v => jsToString v
      let entry := (List.lookup addr network.byAddress).getD { connect := 0, disconnect := 0, timeout := 0 }
      match e.eventFamily with
      | some "connect" =>
          { network with
              connections := network.connections + 1
              byAddress := setAssoc network.byAddress addr { entry with connect := entry.connect + 1 } }
      | some "state_enter" =>
          { network with
              connections := network.connections + 1
              byAddress := setAssoc network.byAddress addr { entry with connect := entry.connect + 1 } }
      | some "disconnect" =>
          { network with
              disconnects := network.disconnects + 1
              byAddress := setAssoc network.byAddress addr { entry with disconnect := entry.disconnect + 1 } }
      | some "send_disconnect" =>
          { network with
              disconnects := network.disconnects + 1
              byAddress := setAssoc network.byAddress addr { entry with disconnect := entry.disconnect + 1 } }
      | some "timeout" =>
          { network with
              timeouts := network.timeouts + 1
              byAddress := setAssoc network.byAddress addr { entry with timeout := entry.timeout + 1 } }
      | some "statistics" =>
          let m := network.metrics
          let m :=
            match jsNumberOf (getField e "rtt") with
            | some x =>
                let k := m.rttSamples.getD 0 + 1
                let cur := m.rttAvg.getD (.val 0)
                { m with
                    rttSamples := some k
                    rttAvg := some (jsnAdd cur (jsnDiv (jsnSub x cur) (.val (k : ℚ)))) }
            | none => m
          let m :=
            match jsNumberOf (getField e "packetsLost") with
            | some x => { m with totalPacketsLost := some (jsnAdd (m.totalPacketsLost.getD (.val 0)) x) }
            | none => m
          let m :=
            match jsNumberOf (getField e "packetsSent") with
            | some x => { m with totalPacketsSent := some (jsnAdd (m.totalPacketsSent.getD (.val 0)) x) }
            | none => m
          let m :=
            match jsNumberOf (getField e "packetsReceived") with
            | some x => { m with totalPacketsReceived := some (jsnAdd (m.totalPacketsReceived.getD (.val 0)) x) }
            | none => m
          { network with byAddress := setAssoc network.byAddress addr entry, metrics := m }
      | _ => { network with byAddress := setAssoc network.byAddress addr entry }
    else network
  if e.logType == "network-messages" then
    let m := network.metrics
    let m := { m with samples := m.samples + 1 }
    let m :=
      match jsNumberOf (getField e "rpi") with
      | some x =>
          let cur := m.rpiAvg.getD (.val 0)
          { m with rpiAvg := some (jsnAdd cur (jsnDiv (jsnSub x cur) (.val (m.samples : ℚ)))) }
      | none => m
    let m :=
      match jsNumberOf (getField e "lud") with
      | some x =>
          let cur := m.ludAvg.getD (.val 0)
          { m with ludAvg := some (jsnAdd cur (jsnDiv (jsnSub x cur) (.val (m.samples : ℚ)))) }
      | none => m
    { network with metrics := m }
  else network

def accumulatePush (e : LogEvent) (push : PushStats) : PushStats :=
  if e.logType != "push-notifications" then push else
  match e.eventFamily with
  | some "connection_params" => { push with connections := push.connections + 1 }
  | some "dropped" => { push with drops := push.drops + 1 }
  | some "notification" => { push with notifications := push.notifications + 1 }
  | some "simple_notification" => { push with notifications := push.notifications + 1 }
  | _ => push

def accumulateAudio (e : LogEvent) (audio : AudioStats) : AudioStats :=
  if e.logType != "spatial-audio" then audio else
  let audio := if e.eventFamily == some "init_success"
    then { audio with initSuccess := audio.initSuccess + 1 } else audio
  if e.eventFamily == some "occlusion_error"
  then { audio with occlusionErrors := audio.occlusionErrors + 1 } else audio

/-- Only count errors from the dedicated "errors" log to avoid
double-counting (source comment). -/
def accumulateErrors (e : LogEvent) (errors : ErrorStats) : ErrorStats :=
  if e.logType != "errors" then errors else
  { totals := errors.totals + 1
    byFamily := bump errors.byFamily (e.eventFamily.getD "unknown") }

def accumulateMatchmaking (e : LogEvent) (matchmaking : MatchmakingStats) : MatchmakingStats :=
  if e.logType != "application" then matchmaking else
  if e.eventFamily == some "matchmaking" then
    let matchmaking := { matchmaking with events := matchmaking.events ++ [e] }
    let groupId := getField e "groupId"
    if jsTruthy groupId && !(matchmaking.groupIds.contains (jsToString groupId))
    then { matchmaking with groupIds := matchmaking.groupIds ++ [jsToString groupId] }
    else matchmaking
  else matchmaking

def accumulateAnticheat (e : LogEvent) (anticheat : AntiCheatStats) : AntiCheatStats :=
  if e.logType != "application" then anticheat else
  let anticheat := if e.eventFamily == some "anticheat"
    then { anticheat with initLines := anticheat.initLines + 1, lastStatus := some e.message }
    else anticheat
  if e.eventFamily == some "error" && strContains (strToLower e.message) "battleye"
  then { anticheat with errors := anticheat.errors + 1 }
  else anticheat

/-! ## Quests (`accumulateQuest`, `findQuestId`) -/

/-- `\w` of the regex engine. -/
def isWordChar (c : Char) : Bool := c.isAlphanum || c == '_'

/-- `[0-9a-f]` under the `/i` flag. -/
def isHexChar (c : Char) : Bool :=
  c.isDigit || ('a' ≤ c && c ≤ 'f') || ('A' ≤ c && c ≤ 'F')

/-- Try `/\b([0-9a-f]{24})\b/i` at the current position; `before` is the
character preceding the position (for the word boundary). -/
def hexMatchAt (before : Option Char) (cs : List Char) : Option String :=
  let tok := cs.take 24
  if tok.length = 24 && tok.all isHexChar
      && (match before with | none => true | some b => !isWordChar b)
      && (match cs.drop 24 with | [] => true | c :: _ => !isWordChar c)
  then some (String.mk tok) else none

/-- Leftmost match of the 24-hex-digit quest-id pattern. -/
def scanHex : Option Char → List Char → Option String
  | _, [] => none
  | b, c :: tl =>
      match hexMatchAt b (c :: tl) with
      | some s => some s
      | none => scanHex (some c) tl

/-- `findQuestId`: a 24-hex token in the message takes priority, else a
truthy `questId` field (coerced to its string form when used as map key). -/
def findQuestId (e : LogEvent) : Option String :=
  match scanHex none e.message.toList with
  | some s => some s
  | none =>
      let v := getField e "questId"
      if jsTruthy v then some (jsToString v) else none

def questDefault (qid : String) : QuestStat :=
  { id := qid
    status := "unknown"
    relatedEvents := []
    traderId := none
    traderName := none
    rewardRubles := none
    rewardItems := none }

/-- The status source of an event:
`(fields?.questStatus as string)?.toLowerCase() ?? (event.message ?? "").toLowerCase()`.
A `questStatus` value that is neither nullish nor a string throws a
`TypeError` in JS (`toLowerCase` is not a function on it). -/
def statusSrc (e : LogEvent) : Except String String :=
  match getField e "questStatus" with
  | .undef => .ok (strToLower e.message)
  | .null => .ok (strToLower e.message)
  | .str s => .ok (strToLower s)
  | _ => .error "TypeError: questStatus.toLowerCase is not a function"

/-- The status-transition chain of `accumulateQuest` (lines 333-339 of
`analytics.ts`), applied to the quest record. -/
def applyStatus (q : QuestStat) (src : String) : QuestStat :=
  if strContains src "completed" || src == "success" then { q with status := "completed" }
  else if strContains src "fail" then { q with status := "failed" }
  else if strContains src "start" || strContains src "description" then
    (if q.status == "unknown" then { q with status := "started" } else q)
  else q

/-- The reward-aggregation block of `accumulateQuest` (lines 342-362):
`questRewardRubles` is guarded by `typeof === "number"`; the
`questRewardItemsCounts` entries and the `questRewardItems` iteration use
raw JS semantics (a truthy non-iterable `questRewardItems` throws). -/
def applyRewards (e : LogEvent) (q : QuestStat) : Except String QuestStat :=
  let q :=
    match jsNumberOf (getField e "questRewardRubles") with
    | some x => { q with rewardRubles := some (jsnAdd (q.rewardRubles.getD (.val 0)) x) }
    | none => q
  let counts := getField e "questRewardItemsCounts"
  let itemsv := getField e "questRewardItems"
  if jsTruthy counts || jsTruthy itemsv then
    let ri := q.rewardItems.getD []
    let ri :=
      if jsTruthy counts then
        (jsEntries counts).foldl (fun m tc =>
          setAssoc m tc.1 (jsAdd ((List.lookup tc.1 m).getD (.num 0)) tc.2)) ri
      else ri
    let riE : Except String (List (String × JSValue)) :=
      if jsTruthy itemsv then
        match jsIterate itemsv with
        | .ok xs => .ok (xs.foldl (fun m tv =>
            setAssoc m (jsToString tv)
              (jsAdd ((List.lookup (jsToString tv) m).getD (.num 0)) (.num 1))) ri)
        | .error m => .error m
      else .ok ri
    match riE with
    | .ok ri2 => .ok { q with rewardItems := some ri2 }
    | .error m => .error m
  else
    .ok q

/-- The trader block of `accumulateQuest` (lines 365-369):
`if (!quests[questId].traderId && traderFromEvent)`, first-write-wins. -/
def applyTrader (e : LogEvent) (q : QuestStat) (traders : List (String × ResolvedEntity)) :
    QuestStat × List (String × ResolvedEntity) :=
  let tv := getField e "questTraderId"
  if !optStrTruthy q.traderId && jsTruthy tv then
    let tid := jsToString tv
    ({ q with traderId := some tid }, upsertResolved traders tid "trader")
  else (q, traders)

/-- `accumulateQuest`.  In JS the record mutations preceding a thrown
`TypeError` are visible on the `quests` object, but the exception aborts
`deriveStatistics` and the object is unreachable afterwards, so returning
the unmodified map in the error case is observation-equivalent. -/
def accumulateQuest (e : LogEvent) (quests : List (String × QuestStat))
    (traders : List (String × ResolvedEntity)) :
    Except String (List (String × QuestStat) × List (String × ResolvedEntity)) :=
  match findQuestId e with
  | none => .ok (quests, traders)
  | some qid =>
      let q := (List.lookup qid quests).getD (questDefault qid)
      let q := { q with relatedEvents := q.relatedEvents ++ [e] }
      match statusSrc e with
      | .error m => .error m
      | .ok src =>
          match applyRewards e (applyStatus q src) with
          | .error m => .error m
          | .ok q2 =>
              let qt := applyTrader e q2 traders
              .ok (setAssoc quests qid qt.1, qt.2)

/-! ## `deriveStatistics` -/

/-- The mutable aggregate carried through the per-event loop. -/
structure Agg where
  backend : BackendStats
  cache : CacheStats
  inventory : InventoryStats
  network : NetworkStats
  push : PushStats
  audio : AudioStats
  errors : ErrorStats
  matchmaking : MatchmakingStats
  anticheat : AntiCheatStats
  quests : List (String × QuestStat)
  traders : List (String × ResolvedEntity)
  items : List (String × ResolvedEntity)

/-- The zero-valued aggregates of `deriveStatistics` (lines 40-58). -/
def aggInit : Agg :=
  { backend := { totalRequests := 0, totalResponses := 0, totalErrors := 0, retries := 0
                 byStatusCode := [], byEndpoint := [] }
    cache := { hits := 0, misses := 0 }
    inventory := { totalRejections := 0, byOperation := [], byCode := [], items := [] }
    network := { connections := 0, disconnects := 0, timeouts := 0, byAddress := []
                 metrics := { samples := 0, rttSamples := none, rttAvg := none, rpiAvg := none
                              ludAvg := none, totalPacketsLost := none, totalPacketsSent := none
                              totalPacketsReceived := none } }
    push := { connections := 0, drops := 0, notifications := 0 }
    audio := { initSuccess := 0, occlusionErrors := 0 }
    errors := { totals := 0, byFamily := [] }
    matchmaking := { groupIds := [], events := [] }
    anticheat := { initLines := 0, errors := 0, lastStatus := none }
    quests := []
    traders := []
    items := [] }

/-- One iteration of the inner event loop of `deriveStatistics`
(lines 61-72), calling every accumulator in source order. -/
def accumulateEvent (st : Agg) (e : LogEvent) : Except String Agg :=
  let backend := accumulateBackend e st.backend
  let cache := accumulateCache e st.cache
  let inv := accumulateInventory e st.inventory st.items
  let network := accumulateNetwork e st.network
  let push := accumulatePush e st.push
  let audio := accumulateAudio e st.audio
  let errors := accumulateErrors e st.errors
  let matchmaking := accumulateMatchmaking e st.matchmaking
  let anticheat := accumulateAnticheat e st.anticheat
  match accumulateQuest e st.quests st.traders with
  | .ok qt =>
      .ok { backend := backend, cache := cache, inventory := inv.1, network := network
            push := push, audio := audio, errors := errors, matchmaking := matchmaking
            anticheat := anticheat, quests := qt.1, traders := qt.2, items := inv.2 }
  | .error msg => .error msg

/-- `deriveStatistics`: sessions, then the single pass over all events of
all results.  A JS exception thrown by `accumulateQuest` aborts the whole
derivation (`Except.error`). -/
def deriveStatistics (results : List ParsedLogResult) : Except String Statistics :=
  let sessions := buildSessions results
  match results.foldlM (fun st r => r.events.foldlM accumulateEvent st) aggInit with
  | .ok fin =>
      .ok { sessions := sessions, backend := fin.backend, cache := fin.cache
            inventory := fin.inventory, network := fin.network, push := fin.push
            audio := fin.audio, errors := fin.errors, matchmaking := fin.matchmaking
            anticheat := fin.anticheat, quests := fin.quests.map (fun p => p.2)
            traders := fin.traders, items := fin.items }
  | .error msg => .error msg

/-! ## Projection lemmas: the single pass decomposes per component -/

/-- The concatenation of all events of all results, in iteration order. -/
def allEvents (results : List ParsedLogResult) : List LogEvent :=
  (results.map (fun r => r.events)).flatten

theorem derive_fold_flatten (results : List ParsedLogResult) (st : Agg) :
    results.foldlM (fun st r => r.events.foldlM accumulateEvent st) st
      = (allEvents results).foldlM accumulateEvent st := by
  induction results generalizing st with
  | nil => simp [allEvents]
  | cons r tl ih =>
      show (r.events.foldlM accumulateEvent st >>= _) = _
      rw [allEvents, List.map_cons, List.flatten_cons, List.foldlM_append]
      cases h : r.events.foldlM accumulateEvent st with
      | error msg => rfl
      | ok st1 =>
          show tl.foldlM _ st1 = _
          exact ih st1

theorem accumulateEvent_ok_proj {β : Type} (π : Agg → β) (g : β → LogEvent → β)
    (hstep : ∀ st e st', accumulateEvent st e = .ok st' → π st' = g (π st) e)
    (evs : List LogEvent) :
    ∀ (st st' : Agg), evs.foldlM accumulateEvent st = .ok st' → π st' = evs.foldl g (π st) := by
  induction evs with
  | nil =>
      intro st st' h
      have : st = st' := by simpa [List.foldlM, pure, Except.pure] using h
      simp [this.symm, List.foldl]
  | cons e tl ih =>
      intro st st' h
      rw [List.foldlM_cons] at h
      cases h1 : accumulateEvent st e with
      | error msg => rw [h1] at h; exact absurd h (by simp [Bind.bind, Except.bind])
      | ok st1 =>
          rw [h1] at h
          have h2 : tl.foldlM accumulateEvent st1 = .ok st' := h
          rw [List.foldl_cons, ← hstep st e st1 h1]
          exact ih st1 st' h2

theorem accumulateEvent_ok_errors (st : Agg) (e : LogEvent) (st' : Agg)
    (h : accumulateEvent st e = .ok st') : st'.errors = accumulateErrors e st.errors := by
  unfold accumulateEvent at h
  cases hq : accumulateQuest e st.quests st.traders with
  | ok qt => rw [hq] at h; cases h; rfl
  | error m => rw [hq] at h; cases h

theorem accumulateEvent_ok_cache (st : Agg) (e : LogEvent) (st' : Agg)
    (h : accumulateEvent st e = .ok st') : st'.cache = accumulateCache e st.cache := by
  unfold accumulateEvent at h
  cases hq : accumulateQuest e st.quests st.traders with
  | ok qt => rw [hq] at h; cases h; rfl
  | error m => rw [hq] at h; cases h

theorem accumulateEvent_ok_network (st : Agg) (e : LogEvent) (st' : Agg)
    (h : accumulateEvent st e = .ok st') : st'.network = accumulateNetwork e st.network := by
  unfold accumulateEvent at h
  cases hq : accumulateQuest e st.quests st.traders with
  | ok qt => rw [hq] at h; cases h; rfl
  | error m => rw [hq] at h; cases h

/-- When `deriveStatistics` succeeds, each claimed component equals the pure
fold of its own accumulator over all events. -/
theorem deriveStatistics_ok_components (results : List ParsedLogResult) (stats : Statistics)
    (h : deriveStatistics results = .ok stats) :
    stats.errors = (allEvents results).foldl (fun a e => accumulateErrors e a) aggInit.errors
    ∧ stats.cache = (allEvents results).foldl (fun a e => accumulateCache e a) aggInit.cache
    ∧ stats.network = (allEvents results).foldl (fun a e => accumulateNetwork e a) aggInit.network := by
  unfold deriveStatistics at h
  rw [derive_fold_flatten] at h
  cases hf : (allEvents results).foldlM accumulateEvent aggInit with
  | error m => rw [hf] at h; cases h
  | ok fin =>
      rw [hf] at h
      cases h
      refine ⟨?_, ?_, ?_⟩
      · exact accumulateEvent_ok_proj (fun a => a.errors) (fun b e => accumulateErrors e b)
          accumulateEvent_ok_errors (allEvents results) aggInit fin hf
      · exact accumulateEvent_ok_proj (fun a => a.cache) (fun b e => accumulateCache e b)
          accumulateEvent_ok_cache (allEvents results) aggInit fin hf
      · exact accumulateEvent_ok_proj (fun a => a.network) (fun b e => accumulateNetwork e b)
          accumulateEvent_ok_network (allEvents results) aggInit fin hf

/-! ## Claim C1: error-count isolation -/

theorem foldl_accumulateErrors_filter (evs : List LogEvent) (er : ErrorStats) :
    evs.foldl (fun a e => accumulateErrors e a) er
      = (evs.filter (fun e => e.logType == "errors")).foldl (fun a e => accumulateErrors e a) er := by
  induction evs generalizing er with
  | nil => rfl
  | cons e tl ih =>
      by_cases h : e.logType = "errors"
      · simp only [List.foldl_cons, List.filter_cons, h]
        simp only [beq_self_eq_true, if_pos]
        rw [List.foldl_cons, ih]
      · have hb : (e.logType == "errors") = false := by simp [h]
        simp only [List.foldl_cons, List.filter_cons, hb, Bool.false_eq_true, if_false]
        have : accumulateErrors e er = er := by simp [accumulateErrors, bne, hb]
        rw [this, ih]

theorem foldl_accumulateErrors_totals (evs : List LogEvent) (er : ErrorStats)
    (hall : ∀ e ∈ evs, e.logType = "errors") :
    (evs.foldl (fun a e => accumulateErrors e a) er).totals = er.totals + evs.length := by
  induction evs generalizing er with
  | nil => simp
  | cons e tl ih =>
      have he : e.logType = "errors" := hall e (by simp)
      have hb : (e.logType != "errors") = false := by simp [he]
      rw [List.foldl_cons]
      rw [ih _ (fun x hx => hall x (by simp [hx]))]
      simp [accumulateErrors, hb]
      omega

/-- Claim C1: for every input list of results, the `errors` sub-aggregate of a
successful `deriveStatistics` run is a function of exactly the events whose
`logType` is `"errors"` (so events of other log types, in particular
`application` events at level `"Error"`, contribute nothing to
`errors.totals` or `errors.byFamily`), and `errors.totals` is exactly the
number of those events. -/
theorem claim_C1 (results : List ParsedLogResult) (stats : Statistics)
    (h : deriveStatistics results = .ok stats) :
    stats.errors = ((allEvents results).filter (fun e => e.logType == "errors")).foldl
        (fun a e => accumulateErrors e a) { totals := 0, byFamily := [] }
    ∧ stats.errors.totals = ((allEvents results).filter (fun e => e.logType == "errors")).length := by
  obtain ⟨he, -, -⟩ := deriveStatistics_ok_components results stats h
  have hinit : aggInit.errors = { totals := 0, byFamily := [] } := rfl
  rw [hinit] at he
  rw [foldl_accumulateErrors_filter] at he
  refine ⟨he, ?_⟩
  rw [he]
  have hall : ∀ e ∈ (allEvents results).filter (fun e => e.logType == "errors"),
      e.logType = "errors" := by
    intro e hef
    have := List.of_mem_filter hef
    simpa using this
  rw [foldl_accumulateErrors_totals _ _ hall]
  simp

/-- Dummy value for extracting the payload of a known-`ok` `Except`. -/
def okValue {α : Type} (x : Except String α) (d : α) : α :=
  match x with
  | .ok v => v
  | .error _ => d

def emptyStatistics : Statistics :=
  { sessions := [], backend := aggInit.backend, cache := aggInit.cache
    inventory := aggInit.inventory, network := aggInit.network, push := aggInit.push
    audio := aggInit.audio, errors := aggInit.errors, matchmaking := aggInit.matchmaking
    anticheat := aggInit.anticheat, quests := [], traders := [], items := [] }

def emptyMeta : LogMeta :=
  { sessionPref := none, buildVersion := none, earliestTimestamp := none, latestTimestamp := none }

/-- Scenario for C1 (spec P4 / Scenario C): one `errors` result with 3 events
and one `application` result with 2 events at level `"Error"`. -/
def errScenario : List ParsedLogResult :=
  [ { filePath := none, logType := "errors"
      events :=
        [ { logType := "errors", eventFamily := some "famA", level := none, message := "boom", fields := none },
          { logType := "errors", eventFamily := none, level := some "Error", message := "bam", fields := none },
          { logType := "errors", eventFamily := some "famA", level := none, message := "bim", fields := none } ]
      meta := emptyMeta },
    { filePath := none, logType := "application"
      events :=
        [ { logType := "application", eventFamily := none, level := some "Error", message := "app err 1", fields := none },
          { logType := "application", eventFamily := none, level := some "Error", message := "app err 2", fields := none } ]
      meta := emptyMeta } ]

/-- Witness for C1 at the concrete P4 scenario: `errors.totals` is 3, not 5. -/
theorem claim_C1_witness :
    deriveStatistics errScenario = Except.ok (okValue (deriveStatistics errScenario) emptyStatistics)
    ∧ (okValue (deriveStatistics errScenario) emptyStatistics).errors.totals = 3 := by
  have h1 : deriveStatistics errScenario
      = Except.ok (okValue (deriveStatistics errScenario) emptyStatistics) := rfl
  refine ⟨h1, ?_⟩
  have h2 := claim_C1 errScenario _ h1
  rw [h2.2]
  rfl

/-! ## Claim C4: cache hit/miss policy -/

/-- Is the `cacheHit` field strictly equal (`===`) to boolean `false`? -/
def isCacheMiss (e : LogEvent) : Bool :=
  match getField e "cacheHit" with
  | .bool false => true
  | _ => false

theorem accumulateCache_step (e : LogEvent) (c : CacheStats) :
    accumulateCache e c =
      if e.logType == "backendCache" then
        (if isCacheMiss e then { c with misses := c.misses + 1 }
         else { c with hits := c.hits + 1 })
      else c := by
  unfold accumulateCache isCacheMiss
  by_cases h : e.logType = "backendCache"
  · have hb : (e.logType != "backendCache") = false := by simp [h]
    simp only [hb, Bool.false_eq_true, if_false, h, beq_self_eq_true, if_pos]
    cases hv : getField e "cacheHit" with
    | bool b => cases b <;> simp
    | _ => simp
  · have hb : (e.logType != "backendCache") = true := by simp [h]
    have hb2 : (e.logType == "backendCache") = false := by simp [h]
    simp [hb, hb2]

theorem foldl_accumulateCache_counts (evs : List LogEvent) (c : CacheStats) :
    (evs.foldl (fun a e => accumulateCache e a) c).misses
        = c.misses + evs.countP (fun e => e.logType == "backendCache" && isCacheMiss e)
    ∧ (evs.foldl (fun a e => accumulateCache e a) c).hits
        = c.hits + evs.countP (fun e => e.logType == "backendCache" && !isCacheMiss e) := by
  induction evs generalizing c with
  | nil => simp
  | cons e tl ih =>
      rw [List.foldl_cons, accumulateCache_step]
      rw [List.countP_cons, List.countP_cons]
      by_cases h : e.logType = "backendCache"
      · by_cases hm : isCacheMiss e = true
        · simp only [h, beq_self_eq_true, if_pos, hm, if_true]
          obtain ⟨i1, i2⟩ := ih { c with misses := c.misses + 1 }
          constructor
          · rw [i1]; simp [hm]; omega
          · rw [i2]; simp [hm]
        · have hm' : isCacheMiss e = false := by simpa using hm
          simp only [h, beq_self_eq_true, if_pos, hm', Bool.false_eq_true, if_false]
          obtain ⟨i1, i2⟩ := ih { c with hits := c.hits + 1 }
          constructor
          · rw [i1]; simp [hm']
          · rw [i2]; simp [hm']; omega
      · have hb : (e.logType == "backendCache") = false := by simp [h]
        simp only [hb, Bool.false_eq_true, if_false, Bool.false_and]
        obtain ⟨i1, i2⟩ := ih c
        simp [i1, i2]

/-- Claim C4: in a successful derivation, an event counts as a cache miss
exactly when its `logType` is `"backendCache"` and its `cacheHit` field is
strictly the boolean `false`; every other `backendCache` event (including an
absent field) counts as a hit. -/
theorem claim_C4 (results : List ParsedLogResult) (stats : Statistics)
    (h : deriveStatistics results = .ok stats) :
    stats.cache.misses
        = (allEvents results).countP (fun e => e.logType == "backendCache" && isCacheMiss e)
    ∧ stats.cache.hits
        = (allEvents results).countP (fun e => e.logType == "backendCache" && !isCacheMiss e) := by
  obtain ⟨-, hc, -⟩ := deriveStatistics_ok_components results stats h
  rw [hc]
  obtain ⟨m, hh⟩ := foldl_accumulateCache_counts (allEvents results) aggInit.cache
  constructor
  · rw [m]; simp [aggInit]
  · rw [hh]; simp [aggInit]

/-- Scenario B of the spec: `[{cacheHit:false},{cacheHit:true},{}]`. -/
def cacheScenario : List ParsedLogResult :=
  [ { filePath := none, logType := "backendCache"
      events :=
        [ { logType := "backendCache", eventFamily := none, level := none, message := "",
            fields := some [("cacheHit", .bool false)] },
          { logType := "backendCache", eventFamily := none, level := none, message := "",
            fields := some [("cacheHit", .bool true)] },
          { logType := "backendCache", eventFamily := none, level := none, message := "",
            fields := some [] } ]
      meta := emptyMeta } ]

/-- Witness for C4 at Scenario B: hits = 2 and misses = 1. -/
theorem claim_C4_witness :
    deriveStatistics cacheScenario = Except.ok (okValue (deriveStatistics cacheScenario) emptyStatistics)
    ∧ (okValue (deriveStatistics cacheScenario) emptyStatistics).cache.hits = 2
    ∧ (okValue (deriveStatistics cacheScenario) emptyStatistics).cache.misses = 1 := by
  have h1 : deriveStatistics cacheScenario
      = Except.ok (okValue (deriveStatistics cacheScenario) emptyStatistics) := rfl
  refine ⟨h1, ?_, ?_⟩
  · have h2 := claim_C4 cacheScenario _ h1
    rw [h2.2]; rfl
  · have h2 := claim_C4 cacheScenario _ h1
    rw [h2.1]; rfl

/-! ## Claim C2: derivation on malformed optional fields -/

/-- A single event whose `questStatus` field is the number 42.  In the JS
source, `accumulateQuest` evaluates
`(fields?.questStatus as string)?.toLowerCase()`; optional chaining only
guards `null`/`undefined`, so `toLowerCase` is called on the number and a
`TypeError` is thrown. -/
def malformedQuestResult : ParsedLogResult :=
  { filePath := none, logType := "application"
    events :=
      [ { logType := "application", eventFamily := none, level := none, message := ""
          fields := some [("questId", .str "q1"), ("questStatus", .num 42)] } ]
    meta := emptyMeta }

/-- Claim C2 evaluated at the failing input: `deriveStatistics` does NOT
return normally on an event with a wrongly-typed (non-string) `questStatus`;
the derivation aborts with a `TypeError`, contradicting the spec's
"the derivation engine never throws on missing or wrongly-typed optional
fields". -/
theorem claim_C2 :
    deriveStatistics [malformedQuestResult]
      = Except.error "TypeError: questStatus.toLowerCase is not a function" := rfl

/-! ## Claim C10: connection success rate (`src/lib/logs/selectors.ts`) -/

/-- The fields of the external `ConnectivityInsight` aggregate that
`getConnectionSuccessRate` reads; both are accumulated event counts. -/
structure ConnectivityInsight where
  totalConnections : ℕ
  totalTimeouts : ℕ
deriving DecidableEq, Repr

/-- `getConnectionSuccessRate` (selectors.ts lines 275-281). -/
def getConnectionSuccessRate (connectivity : ConnectivityInsight) : ℚ :=
  let total := connectivity.totalConnections + connectivity.totalTimeouts
  if total = 0 then 100
  else ((connectivity.totalConnections : ℚ) / (total : ℚ)) * 100

/-- Claim C10: the selector returns 100 on an empty connectivity aggregate
(zero connections and zero timeouts), and otherwise the ratio
`totalConnections / (totalConnections + totalTimeouts) * 100`. -/
theorem claim_C10 (c : ConnectivityInsight) :
    (c.totalConnections = 0 ∧ c.totalTimeouts = 0 → getConnectionSuccessRate c = 100)
    ∧ (¬(c.totalConnections = 0 ∧ c.totalTimeouts = 0) →
        getConnectionSuccessRate c
          = (c.totalConnections : ℚ) / ((c.totalConnections : ℚ) + (c.totalTimeouts : ℚ)) * 100) := by
  constructor
  · rintro ⟨h1, h2⟩
    simp [getConnectionSuccessRate, h1, h2]
  · intro h
    have htot : c.totalConnections + c.totalTimeouts ≠ 0 := by omega
    simp only [getConnectionSuccessRate, htot, if_false]
    push_cast
    ring

/-- Witness for C10 at two concrete aggregates: the empty aggregate reports
100 and a 3-connection 1-timeout aggregate reports 75. -/
theorem claim_C10_witness :
    getConnectionSuccessRate { totalConnections := 0, totalTimeouts := 0 } = 100
    ∧ getConnectionSuccessRate { totalConnections := 3, totalTimeouts := 1 } = 75 := by
  constructor
  · exact (claim_C10 { totalConnections := 0, totalTimeouts := 0 }).1 ⟨rfl, rfl⟩
  · have h := (claim_C10 { totalConnections := 3, totalTimeouts := 1 }).2 (by simp)
    rw [h]
    norm_num

/-! ## Claim C6: `downsampleData` (LTTB, selectors.ts lines 404-457) -/

structure Point where
  x : ℚ
  y : ℚ
deriving DecidableEq, Repr

/-- JS `data[j]` returns `undefined` out of bounds; all indices evaluated by
the algorithm are in bounds in the regime where the loop runs, so a default
point is used for the total embedding. -/
def pZero : Point := { x := 0, y := 0 }

/-- One iteration of the LTTB bucket loop (lines 416-451): average the next
bucket, then pick the point of the current bucket with the largest triangle
area against the previous selected point. -/
def lttbPick (data : List Point) (bucketSize : ℚ) (i : ℕ) (prev : Point) : Point :=
  let len : ℤ := data.length
  let avgRangeStart : ℤ := ⌊((i : ℚ) + 1) * bucketSize⌋ + 1
  let avgRangeEnd : ℤ := ⌊((i : ℚ) + 2) * bucketSize⌋ + 1
  let hi : ℤ := min avgRangeEnd len
  let avgRangeLength : ℚ := ((hi - avgRangeStart : ℤ) : ℚ)
  let js := (List.range (hi - avgRangeStart).toNat).map (fun k => avgRangeStart.toNat + k)
  let avgX := (js.map (fun j => (data.getD j pZero).x)).sum / avgRangeLength
  let avgY := (js.map (fun j => (data.getD j pZero).y)).sum / avgRangeLength
  let rangeStart : ℤ := ⌊(i : ℚ) * bucketSize⌋ + 1
  let rangeEnd : ℤ := ⌊((i : ℚ) + 1) * bucketSize⌋ + 1
  let ks := (List.range (rangeEnd - rangeStart).toNat).map (fun k => rangeStart.toNat + k)
  let pick := ks.foldl (fun (st : ℚ × Point) j =>
      let p := data.getD j pZero
      let area := |(prev.x - avgX) * (p.y - prev.y) - (prev.x - p.x) * (avgY - prev.y)|
      if area > st.1 then (area, p) else st)
    (-1, data.getD rangeStart.toNat pZero)
  pick.2

/-- The selection loop of `downsampleData`, counting down the remaining
buckets; the base case is the final `result.push(data[data.length - 1])`. -/
def lttbLoop (data : List Point) (bucketSize : ℚ) : ℕ → ℕ → Point → List Point
  | 0, _, _ => [data.getD (data.length - 1) pZero]
  | k + 1, i, prev =>
      let chosen := lttbPick data bucketSize i prev
      chosen :: lttbLoop data bucketSize k (i + 1) chosen

/-- `downsampleData`.  The loop runs `maxPoints - 2` times: in JS
`i < maxPoints - 2` fails immediately when `maxPoints < 2`, and the natural
subtraction used here is then 0 as well.  `bucketSize` is
`(data.length - 2) / (maxPoints - 2)`; its value is irrelevant when the loop
does not run (the rational division by zero at `maxPoints = 2` differs from
the JS `Infinity` only in that dead case). -/
def downsampleData (data : List Point) (maxPoints : ℕ) : List Point :=
  if data.length ≤ maxPoints then data
  else
    let bucketSize : ℚ := ((data.length : ℚ) - 2) / ((maxPoints : ℚ) - 2)
    data.getD 0 pZero :: lttbLoop data bucketSize (maxPoints - 2) 0 (data.getD 0 pZero)

theorem lttbLoop_length (data : List Point) (bucketSize : ℚ) :
    ∀ (k i : ℕ) (prev : Point), (lttbLoop data bucketSize k i prev).length = k + 1 := by
  intro k
  induction k with
  | zero => intro i prev; rfl
  | succ n ih => intro i prev; simp [lttbLoop, ih]

theorem lttbLoop_getLast (data : List Point) (bucketSize : ℚ) :
    ∀ (k i : ℕ) (prev : Point),
      (lttbLoop data bucketSize k i prev).getLast? = some (data.getD (data.length - 1) pZero) := by
  intro k
  induction k with
  | zero => intro i prev; rfl
  | succ n ih =>
      intro i prev
      show (lttbPick data bucketSize i prev :: lttbLoop data bucketSize n (i + 1) _).getLast? = _
      rw [List.getLast?_cons, ih]
      simp

theorem getD_length_sub_one (data : List Point) (h : data ≠ []) :
    data.getLast? = some (data.getD (data.length - 1) pZero) := by
  induction data with
  | nil => exact absurd rfl h
  | cons a tl ih =>
      cases tl with
      | nil => rfl
      | cons b t =>
          rw [List.getLast?_cons_cons, ih (by simp)]
          show _ = some ((a :: b :: t).getD (t.length + 1) pZero)
          rfl

/-- Claim C6 is false as stated: with two data points and `maxPoints = 1`
the function returns 2 points, not `min(data.length, maxPoints) = 1`
(the JS loop `for (i = 0; i < maxPoints - 2; …)` never runs, but the first
and last points are pushed unconditionally). -/
theorem claim_C6_cex :
    (downsampleData [{ x := 0, y := 0 }, { x := 1, y := 1 }] 1).length = 2
    ∧ min ([{ x := 0, y := 0 }, { x := 1, y := 1 }] : List Point).length 1 = 1
    ∧ ((downsampleData [{ x := 0, y := 0 }, { x := 1, y := 1 }] 1).length
        == min ([{ x := 0, y := 0 }, { x := 1, y := 1 }] : List Point).length 1) = false := by
  refine ⟨rfl, rfl, ?_⟩
  decide

/-- Claim C6 amended: `downsampleData` returns `data` itself when
`data.length ≤ maxPoints`, always keeps the first and last original points
in first and last position, and returns exactly `min(data.length, maxPoints)`
points whenever `maxPoints ≥ 2` (for `maxPoints ≤ 1` with more data points it
returns the 2 points first+last instead). -/
theorem claim_C6_amended (data : List Point) (maxPoints : ℕ) :
    (data.length ≤ maxPoints → downsampleData data maxPoints = data)
    ∧ (downsampleData data maxPoints).head? = data.head?
    ∧ (downsampleData data maxPoints).getLast? = data.getLast?
    ∧ (2 ≤ maxPoints → maxPoints < data.length →
        (downsampleData data maxPoints).length = min data.length maxPoints) := by
  by_cases h : data.length ≤ maxPoints
  · refine ⟨fun _ => by simp [downsampleData, h], by simp [downsampleData, h],
      by simp [downsampleData, h], fun h2 h3 => ?_⟩
    omega
  · have hlt : maxPoints < data.length := by omega
    have hne : data ≠ [] := by
      intro hd; rw [hd] at hlt; simp at hlt
    have hres : downsampleData data maxPoints
        = data.getD 0 pZero :: lttbLoop data (((data.length : ℚ) - 2) / ((maxPoints : ℚ) - 2))
            (maxPoints - 2) 0 (data.getD 0 pZero) := by
      simp [downsampleData, h]
    refine ⟨fun hc => absurd hc h, ?_, ?_, ?_⟩
    · rw [hres]
      cases data with
      | nil => exact absurd rfl hne
      | cons a tl => rfl
    · rw [hres, List.getLast?_cons, lttbLoop_getLast, getD_length_sub_one data hne]
      simp
    · intro h2 h3
      rw [hres]
      simp only [List.length_cons, lttbLoop_length]
      omega

def downsampleFiveData : List Point :=
  [ { x := 0, y := 0 }, { x := 1, y := 5 }, { x := 2, y := 1 },
    { x := 3, y := 4 }, { x := 4, y := 2 } ]

/-- Witness for the amended C6: 5 points downsampled to a budget of 3 give
exactly 3 points with the original endpoints, and 2 points with a budget of
5 are returned unchanged. -/
theorem claim_C6_amended_witness :
    (downsampleData downsampleFiveData 3).length = 3
    ∧ (downsampleData downsampleFiveData 3).head? = some { x := 0, y := 0 }
    ∧ (downsampleData downsampleFiveData 3).getLast? = some { x := 4, y := 2 }
    ∧ downsampleData [{ x := 7, y := 7 }, { x := 8, y := 8 }] 5
        = [{ x := 7, y := 7 }, { x := 8, y := 8 }] := by
  obtain ⟨hnoop, hhead, hlast, hlen⟩ := claim_C6_amended downsampleFiveData 3
  obtain ⟨hnoop2, -, -, -⟩ := claim_C6_amended [{ x := 7, y := 7 }, { x := 8, y := 8 }] 5
  refine ⟨?_, ?_, ?_, hnoop2 (by decide)⟩
  · rw [hlen (by decide) (by decide)]; rfl
  · rw [hhead]; rfl
  · rw [hlast]; rfl

/-! ## Claim C5: running averages in `accumulateNetwork` -/

/-- The fold of the network accumulator over an event list, from the
zero-valued `NetworkStats` of `deriveStatistics`. -/
def foldNetwork (evs : List LogEvent) : NetworkStats :=
  evs.foldl (fun n e => accumulateNetwork e n) aggInit.network

/-- Claim-side definition: the numeric (non-NaN) `rtt` values carried by
`network-connection`/`statistics` events, in order. -/
def rttValues (evs : List LogEvent) : List ℚ :=
  evs.filterMap (fun e =>
    if e.logType == "network-connection" && e.eventFamily == some "statistics" then
      match getField e "rtt" with
      | .num q => some q
      | _ => none
    else none)

/-- Claim-side definition: the numeric `rpi` values of `network-messages`
events. -/
def rpiValues (evs : List LogEvent) : List ℚ :=
  evs.filterMap (fun e =>
    if e.logType == "network-messages" then
      match getField e "rpi" with
      | .num q => some q
      | _ => none
    else none)

/-- Claim-side definition: the numeric `lud` values of `network-messages`
events. -/
def ludValues (evs : List LogEvent) : List ℚ :=
  evs.filterMap (fun e =>
    if e.logType == "network-messages" then
      match getField e "lud" with
      | .num q => some q
      | _ => none
    else none)

/-- The global sample counter: every `network-messages` event counts. -/
def msgCount (evs : List LogEvent) : ℕ :=
  evs.countP (fun e => e.logType == "network-messages")

theorem accumulateNetwork_other (e : LogEvent) (n : NetworkStats)
    (h1 : e.logType ≠ "network-connection") (h2 : e.logType ≠ "network-messages") :
    accumulateNetwork e n = n := by
  have b1 : (e.logType == "network-connection") = false := by simp [h1]
  have b2 : (e.logType == "network-messages") = false := by simp [h2]
  simp [accumulateNetwork, b1, b2]

theorem accumulateNetwork_conn_nonstat (e : LogEvent) (n : NetworkStats)
    (h1 : e.logType = "network-connection") (hf : e.eventFamily ≠ some "statistics") :
    (accumulateNetwork e n).metrics = n.metrics := by
  have b1 : (e.logType == "network-connection") = true := by simp [h1]
  have b2 : (e.logType == "network-messages") = false := by simp [h1]
  unfold accumulateNetwork
  simp only [b1, if_true, b2, Bool.false_eq_true, if_false]
  split <;> first | rfl | simp_all

theorem accumulateNetwork_conn_stat (e : LogEvent) (n : NetworkStats)
    (h1 : e.logType = "network-connection") (hf : e.eventFamily = some "statistics") :
    (accumulateNetwork e n).metrics.samples = n.metrics.samples
    ∧ (accumulateNetwork e n).metrics.rpiAvg = n.metrics.rpiAvg
    ∧ (accumulateNetwork e n).metrics.ludAvg = n.metrics.ludAvg
    ∧ ((accumulateNetwork e n).metrics.rttSamples, (accumulateNetwork e n).metrics.rttAvg)
      = (match jsNumberOf (getField e "rtt") with
         | some x =>
             (some (n.metrics.rttSamples.getD 0 + 1),
              some (jsnAdd (n.metrics.rttAvg.getD (.val 0))
                (jsnDiv (jsnSub x (n.metrics.rttAvg.getD (.val 0)))
                  (.val ((n.metrics.rttSamples.getD 0 + 1 : ℕ) : ℚ)))))
         | none => (n.metrics.rttSamples, n.metrics.rttAvg)) := by
  have b1 : (e.logType == "network-connection") = true := by simp [h1]
  have b2 : (e.logType == "network-messages") = false := by simp [h1]
  cases hr : jsNumberOf (getField e "rtt") <;>
    cases hl : jsNumberOf (getField e "packetsLost") <;>
      cases hs : jsNumberOf (getField e "packetsSent") <;>
        cases hc : jsNumberOf (getField e "packetsReceived") <;>
          simp [accumulateNetwork, b1, b2, hf, hr, hl, hs, hc]

theorem accumulateNetwork_msg (e : LogEvent) (n : NetworkStats)
    (h1 : e.logType = "network-messages") :
    (accumulateNetwork e n).metrics.samples = n.metrics.samples + 1
    ∧ (accumulateNetwork e n).metrics.rttSamples = n.metrics.rttSamples
    ∧ (accumulateNetwork e n).metrics.rttAvg = n.metrics.rttAvg
    ∧ (accumulateNetwork e n).metrics.rpiAvg
      = (match jsNumberOf (getField e "rpi") with
         | some x => some (jsnAdd (n.metrics.rpiAvg.getD (.val 0))
             (jsnDiv (jsnSub x (n.metrics.rpiAvg.getD (.val 0)))
               (.val ((n.metrics.samples + 1 : ℕ) : ℚ))))
         | none => n.metrics.rpiAvg)
    ∧ (accumulateNetwork e n).metrics.ludAvg
      = (match jsNumberOf (getField e "lud") with
         | some x => some (jsnAdd (n.metrics.ludAvg.getD (.val 0))
             (jsnDiv (jsnSub x (n.metrics.ludAvg.getD (.val 0)))
               (.val ((n.metrics.samples + 1 : ℕ) : ℚ))))
         | none => n.metrics.ludAvg) := by
  have b1 : (e.logType == "network-connection") = false := by simp [h1]
  have b2 : (e.logType == "network-messages") = true := by simp [h1]
  cases hr : jsNumberOf (getField e "rpi") <;>
    cases hl : jsNumberOf (getField e "lud") <;>
      simp [accumulateNetwork, b1, b2, hr, hl]

theorem incMean (s q : ℚ) (k : ℕ) (hk : k ≠ 0) :
    s / (k : ℚ) + (q - s / (k : ℚ)) / ((k : ℚ) + 1) = (s + q) / ((k : ℚ) + 1) := by
  have hk' : (k : ℚ) ≠ 0 := Nat.cast_ne_zero.mpr hk
  have hk1 : (k : ℚ) + 1 ≠ 0 := by positivity
  field_simp
  ring

theorem foldNetwork_append (l : List LogEvent) (e : LogEvent) :
    foldNetwork (l ++ [e]) = accumulateNetwork e (foldNetwork l) := by
  simp [foldNetwork, List.foldl_append]

theorem rttValues_singleton (e : LogEvent) :
    rttValues [e]
      = if e.logType == "network-connection" && e.eventFamily == some "statistics" then
          (match getField e "rtt" with
           | JSValue.num q => [q]
           | _ => [])
        else [] := by
  simp only [rttValues, List.filterMap]
  cases hb : (e.logType == "network-connection" && e.eventFamily == some "statistics")
  · simp
  · simp only [if_true]
    cases hv : getField e "rtt" <;> simp

theorem foldNetwork_rtt (evs : List LogEvent)
    (hnan : ∀ e ∈ evs, e.logType = "network-connection" → e.eventFamily = some "statistics" →
        getField e "rtt" ≠ JSValue.nan) :
    ((foldNetwork evs).metrics.rttSamples
        = if rttValues evs = [] then none else some (rttValues evs).length)
    ∧ ((foldNetwork evs).metrics.rttAvg
        = if rttValues evs = [] then none
          else some (.val ((rttValues evs).sum / ((rttValues evs).length : ℚ)))) := by
  induction evs using List.reverseRecOn with
  | nil => exact ⟨rfl, rfl⟩
  | append_singleton l e ih =>
      have hl := ih (fun x hx => hnan x (by simp [hx]))
      rw [foldNetwork_append]
      have hsplit : rttValues (l ++ [e]) = rttValues l ++ rttValues [e] := by
        simp [rttValues]
      by_cases hc : e.logType = "network-connection"
      · by_cases hcs : e.eventFamily = some "statistics"
        · have hcon := accumulateNetwork_conn_stat e (foldNetwork l) hc hcs
          obtain ⟨-, -, -, hrtt⟩ := hcon
          have hb : (e.logType == "network-connection" && e.eventFamily == some "statistics") = true := by
            simp [hc, hcs]
          cases hr : jsNumberOf (getField e "rtt") with
          | none =>
              have hvals : rttValues [e] = [] := by
                rw [rttValues_singleton, hb, if_pos rfl]
                cases hv : getField e "rtt"
                case num q => rw [hv] at hr; exact absurd hr (by simp [jsNumberOf])
                all_goals rfl
              rw [hr] at hrtt
              have h1 := congrArg Prod.fst hrtt
              have h2 := congrArg Prod.snd hrtt
              simp only at h1 h2
              rw [hsplit, hvals, List.append_nil]
              exact ⟨h1.trans hl.1, h2.trans hl.2⟩
          | some x =>
              -- the sample is numeric; NaN is excluded by the hypothesis
              have hne := hnan e (by simp) hc hcs
              have hxval : ∃ q, getField e "rtt" = JSValue.num q ∧ x = JSNumber.val q := by
                cases hv : getField e "rtt"
                case num q =>
                  rw [hv] at hr
                  refine ⟨q, rfl, ?_⟩
                  have : some (JSNumber.val q) = some x := hr
                  exact (Option.some.inj this).symm
                case nan => exact absurd hv hne
                all_goals (rw [hv] at hr; exact absurd hr (by simp [jsNumberOf]))
              obtain ⟨q, hv, hxq⟩ := hxval
              have hvals : rttValues [e] = [q] := by
                rw [rttValues_singleton, hb, if_pos rfl, hv]
              rw [hr] at hrtt
              have h1 := congrArg Prod.fst hrtt
              have h2 := congrArg Prod.snd hrtt
              simp only at h1 h2
              rw [hsplit, hvals]
              by_cases hemp : rttValues l = []
              · have hs0 : (foldNetwork l).metrics.rttSamples = none := by
                  rw [hl.1, if_pos hemp]
                have ha0 : (foldNetwork l).metrics.rttAvg = none := by
                  rw [hl.2, if_pos hemp]
                rw [hs0] at h1 h2
                rw [ha0] at h2
                constructor
                · rw [h1, hemp]
                  simp
                · rw [h2, hemp, hxq]
                  simp [jsnSub, jsnDiv, jsnAdd]
              · have hk : (rttValues l).length ≠ 0 := by
                  simpa [List.length_eq_zero] using hemp
                have hs0 : (foldNetwork l).metrics.rttSamples = some (rttValues l).length := by
                  rw [hl.1, if_neg hemp]
                have ha0 : (foldNetwork l).metrics.rttAvg
                    = some (.val ((rttValues l).sum / ((rttValues l).length : ℚ))) := by
                  rw [hl.2, if_neg hemp]
                rw [hs0] at h1 h2
                rw [ha0] at h2
                have hne2 : rttValues l ++ [q] ≠ [] := by simp
                constructor
                · rw [h1, if_neg hne2]
                  simp
                · rw [h2, if_neg hne2, hxq]
                  simp only [Option.getD_some, jsnSub, jsnDiv, jsnAdd]
                  have hk1 : ((rttValues l).length : ℚ) + 1 ≠ 0 := by positivity
                  rw [if_neg (by push_cast; exact_mod_cast hk1)]
                  congr 1
                  push_cast
                  rw [incMean _ _ _ hk]
                  simp
        · have hm2 := accumulateNetwork_conn_nonstat e (foldNetwork l) hc hcs
          have hvals : rttValues [e] = [] := by
            have hb : (e.logType == "network-connection" && e.eventFamily == some "statistics") = false := by
              simp [hcs]
            rw [rttValues_singleton, hb]
            rfl
          rw [hsplit, hvals, List.append_nil, hm2]
          exact hl
      · by_cases hm : e.logType = "network-messages"
        · obtain ⟨-, hs, ha, -, -⟩ := accumulateNetwork_msg e (foldNetwork l) hm
          have hvals : rttValues [e] = [] := by
            have hb : (e.logType == "network-connection" && e.eventFamily == some "statistics") = false := by
              simp [hc]
            rw [rttValues_singleton, hb]
            rfl
          rw [hsplit, hvals, List.append_nil, hs, ha]
          exact hl
        · rw [accumulateNetwork_other e _ hc hm]
          have hvals : rttValues [e] = [] := by
            have hb : (e.logType == "network-connection" && e.eventFamily == some "statistics") = false := by
              simp [hc]
            rw [rttValues_singleton, hb]
            rfl
          rw [hsplit, hvals, List.append_nil]
          exact hl

theorem rpiValues_singleton (e : LogEvent) :
    rpiValues [e]
      = if e.logType == "network-messages" then
          (match getField e "rpi" with
           | JSValue.num q => [q]
           | _ => [])
        else [] := by
  simp only [rpiValues, List.filterMap]
  cases hb : (e.logType == "network-messages")
  · simp
  · simp only [if_true]
    cases hv : getField e "rpi" <;> simp

theorem ludValues_singleton (e : LogEvent) :
    ludValues [e]
      = if e.logType == "network-messages" then
          (match getField e "lud" with
           | JSValue.num q => [q]
           | _ => [])
        else [] := by
  simp only [ludValues, List.filterMap]
  cases hb : (e.logType == "network-messages")
  · simp
  · simp only [if_true]
    cases hv : getField e "lud" <;> simp

theorem msgCount_append_one (l : List LogEvent) (e : LogEvent) :
    msgCount (l ++ [e]) = msgCount l + (if e.logType == "network-messages" then 1 else 0) := by
  simp only [msgCount, List.countP_append, List.countP_cons, List.countP_nil]
  cases hb : (e.logType == "network-messages") <;> simp

theorem foldNetwork_msgAvgs (evs : List LogEvent)
    (hall : ∀ e ∈ evs, e.logType = "network-messages" →
        (∃ q, getField e "rpi" = JSValue.num q) ∧ (∃ q, getField e "lud" = JSValue.num q)) :
    (foldNetwork evs).metrics.samples = msgCount evs
    ∧ (rpiValues evs).length = msgCount evs
    ∧ (ludValues evs).length = msgCount evs
    ∧ ((foldNetwork evs).metrics.rpiAvg
        = if msgCount evs = 0 then none
          else some (.val ((rpiValues evs).sum / ((rpiValues evs).length : ℚ))))
    ∧ ((foldNetwork evs).metrics.ludAvg
        = if msgCount evs = 0 then none
          else some (.val ((ludValues evs).sum / ((ludValues evs).length : ℚ)))) := by
  induction evs using List.reverseRecOn with
  | nil => exact ⟨rfl, rfl, rfl, rfl, rfl⟩
  | append_singleton l e ih =>
      obtain ⟨ih1, ih2, ih3, ih4, ih5⟩ := ih (fun x hx => hall x (by simp [hx]))
      rw [foldNetwork_append]
      have hrs : rpiValues (l ++ [e]) = rpiValues l ++ rpiValues [e] := by simp [rpiValues]
      have hls : ludValues (l ++ [e]) = ludValues l ++ ludValues [e] := by simp [ludValues]
      by_cases hm : e.logType = "network-messages"
      · have hbm : (e.logType == "network-messages") = true := by simp [hm]
        obtain ⟨⟨q, hq⟩, ⟨u, hu⟩⟩ := hall e (by simp) hm
        obtain ⟨hsamp, -, -, hrpi, hlud⟩ := accumulateNetwork_msg e (foldNetwork l) hm
        have hjr : jsNumberOf (getField e "rpi") = some (JSNumber.val q) := by
          rw [hq]; rfl
        have hjl : jsNumberOf (getField e "lud") = some (JSNumber.val u) := by
          rw [hu]; rfl
        rw [hjr] at hrpi
        rw [hjl] at hlud
        simp only at hrpi hlud
        have hv1 : rpiValues [e] = [q] := by rw [rpiValues_singleton, hbm, if_pos rfl, hq]
        have hv2 : ludValues [e] = [u] := by rw [ludValues_singleton, hbm, if_pos rfl, hu]
        have hcnt : msgCount (l ++ [e]) = msgCount l + 1 := by
          rw [msgCount_append_one, hbm, if_pos rfl]
        rw [hrs, hls, hv1, hv2, hcnt, hsamp, ih1]
        rw [ih1] at hrpi hlud
        refine ⟨rfl, by simp [ih2], by simp [ih3], ?_, ?_⟩
        · by_cases h0 : msgCount l = 0
          · have hpe : rpiValues l = [] := List.length_eq_zero.mp (by rw [ih2, h0])
            rw [ih4, if_pos h0] at hrpi
            rw [hrpi, hpe, h0]
            simp [jsnSub, jsnDiv, jsnAdd]
          · have hk : (rpiValues l).length ≠ 0 := by rw [ih2]; exact h0
            rw [ih4, if_neg h0] at hrpi
            rw [hrpi]
            rw [if_neg (by omega)]
            simp only [Option.getD_some, jsnSub, jsnDiv, jsnAdd]
            have hk1 : ((msgCount l : ℚ)) + 1 ≠ 0 := by positivity
            rw [if_neg (by push_cast; exact_mod_cast hk1)]
            congr 1
            rw [← ih2]
            push_cast
            rw [incMean _ _ _ hk]
            simp
        · by_cases h0 : msgCount l = 0
          · have hpe : ludValues l = [] := List.length_eq_zero.mp (by rw [ih3, h0])
            rw [ih5, if_pos h0] at hlud
            rw [hlud, hpe, h0]
            simp [jsnSub, jsnDiv, jsnAdd]
          · have hk : (ludValues l).length ≠ 0 := by rw [ih3]; exact h0
            rw [ih5, if_neg h0] at hlud
            rw [hlud]
            rw [if_neg (by omega)]
            simp only [Option.getD_some, jsnSub, jsnDiv, jsnAdd]
            have hk1 : ((msgCount l : ℚ)) + 1 ≠ 0 := by positivity
            rw [if_neg (by push_cast; exact_mod_cast hk1)]
            congr 1
            rw [← ih3]
            push_cast
            rw [incMean _ _ _ hk]
            simp
      · have hbm : (e.logType == "network-messages") = false := by simp [hm]
        have hv1 : rpiValues [e] = [] := by rw [rpiValues_singleton, hbm]; rfl
        have hv2 : ludValues [e] = [] := by rw [ludValues_singleton, hbm]; rfl
        have hcnt : msgCount (l ++ [e]) = msgCount l := by
          rw [msgCount_append_one, hbm]; simp
        rw [hrs, hls, hv1, hv2, hcnt, List.append_nil, List.append_nil]
        by_cases hc : e.logType = "network-connection"
        · by_cases hcs : e.eventFamily = some "statistics"
          · obtain ⟨hs1, hs2, hs3, -⟩ := accumulateNetwork_conn_stat e (foldNetwork l) hc hcs
            rw [hs1, hs2, hs3]
            exact ⟨ih1, ih2, ih3, ih4, ih5⟩
          · rw [accumulateNetwork_conn_nonstat e (foldNetwork l) hc hcs]
            exact ⟨ih1, ih2, ih3, ih4, ih5⟩
        · rw [accumulateNetwork_other e _ hc hm]
          exact ⟨ih1, ih2, ih3, ih4, ih5⟩

def msgEventNoRpi : LogEvent :=
  { logType := "network-messages", eventFamily := none, level := none, message := "", fields := some [] }

def msgEventRpi10 : LogEvent :=
  { logType := "network-messages", eventFamily := none, level := none, message := ""
    fields := some [("rpi", .num 10)] }

/-- Claim C5 is false as stated for `rpi` (and `lud`): the divisor of the
running-average update is the global `network-messages` sample counter, not
the count of numeric samples of the metric.  With one `network-messages`
event without `rpi` followed by one with `rpi = 10`, the accumulator stores
`0 + (10 - 0) / 2 = 5`, while the arithmetic mean of the numeric `rpi`
samples is `10`. -/
theorem claim_C5_cex :
    (foldNetwork [msgEventNoRpi, msgEventRpi10]).metrics.rpiAvg = some (JSNumber.val 5)
    ∧ rpiValues [msgEventNoRpi, msgEventRpi10] = [10]
    ∧ ((foldNetwork [msgEventNoRpi, msgEventRpi10]).metrics.rpiAvg
        == some (JSNumber.val ((rpiValues [msgEventNoRpi, msgEventRpi10]).sum
            / ((rpiValues [msgEventNoRpi, msgEventRpi10]).length : ℚ)))) = false := by
  have hfold : foldNetwork [msgEventNoRpi, msgEventRpi10]
      = accumulateNetwork msgEventRpi10 (accumulateNetwork msgEventNoRpi aggInit.network) := rfl
  obtain ⟨hs1, -, -, hr1, -⟩ := accumulateNetwork_msg msgEventNoRpi aggInit.network rfl
  obtain ⟨hs2, -, -, hr2, -⟩ :=
    accumulateNetwork_msg msgEventRpi10 (accumulateNetwork msgEventNoRpi aggInit.network) rfl
  have hj1 : jsNumberOf (getField msgEventNoRpi "rpi") = none := rfl
  have hj2 : jsNumberOf (getField msgEventRpi10 "rpi") = some (JSNumber.val 10) := rfl
  rw [hj1] at hr1
  rw [hj2] at hr2
  simp only at hr1 hr2
  have hsam1 : (accumulateNetwork msgEventNoRpi aggInit.network).metrics.samples = 1 := by
    rw [hs1]; rfl
  have hrp1 : (accumulateNetwork msgEventNoRpi aggInit.network).metrics.rpiAvg = none := by
    rw [hr1]; rfl
  rw [hsam1, hrp1] at hr2
  simp only [Option.getD_none] at hr2
  have h1 : (foldNetwork [msgEventNoRpi, msgEventRpi10]).metrics.rpiAvg
      = some (JSNumber.val 5) := by
    rw [hfold, hr2]
    simp only [jsnSub, jsnDiv, jsnAdd]
    norm_num
  have h2 : rpiValues [msgEventNoRpi, msgEventRpi10] = [10] := rfl
  refine ⟨h1, h2, ?_⟩
  rw [h1, h2]
  have h3 : ((rpiValues [msgEventNoRpi, msgEventRpi10]).sum
      / ((rpiValues [msgEventNoRpi, msgEventRpi10]).length : ℚ)) = 10 := by
    rw [h2]
    norm_num
  rw [h2] at h3
  rw [h3]
  decide

/-- Claim C5 amended: `rtt` follows the incremental-mean rule with `n` the
count of numeric `rtt` samples, so (in exact arithmetic, NaN-free) `rttAvg`
is the arithmetic mean of the numeric `rtt` values.  For `rpi` and `lud` the
divisor `n` is the *global* `network-messages` event counter
(`metrics.samples`), so their averages equal the arithmetic means of their
numeric values only when every `network-messages` event carries the field as
a number; under that hypothesis `samples` equals both counts and the stored
averages are the exact means. -/
theorem claim_C5_amended (evs : List LogEvent)
    (hnan : ∀ e ∈ evs, e.logType = "network-connection" → e.eventFamily = some "statistics" →
        getField e "rtt" ≠ JSValue.nan)
    (hall : ∀ e ∈ evs, e.logType = "network-messages" →
        (∃ q, getField e "rpi" = JSValue.num q) ∧ (∃ q, getField e "lud" = JSValue.num q)) :
    ((foldNetwork evs).metrics.rttSamples
        = if rttValues evs = [] then none else some (rttValues evs).length)
    ∧ ((foldNetwork evs).metrics.rttAvg
        = if rttValues evs = [] then none
          else some (.val ((rttValues evs).sum / ((rttValues evs).length : ℚ))))
    ∧ (foldNetwork evs).metrics.samples = msgCount evs
    ∧ ((foldNetwork evs).metrics.rpiAvg
        = if msgCount evs = 0 then none
          else some (.val ((rpiValues evs).sum / ((rpiValues evs).length : ℚ))))
    ∧ ((foldNetwork evs).metrics.ludAvg
        = if msgCount evs = 0 then none
          else some (.val ((ludValues evs).sum / ((ludValues evs).length : ℚ)))) := by
  obtain ⟨h1, h2⟩ := foldNetwork_rtt evs hnan
  obtain ⟨h3, -, -, h4, h5⟩ := foldNetwork_msgAvgs evs hall
  exact ⟨h1, h2, h3, h4, h5⟩

def netWitnessEvents : List LogEvent :=
  [ { logType := "network-connection", eventFamily := some "statistics", level := none,
      message := "", fields := some [("rtt", .num 10)] },
    { logType := "network-connection", eventFamily := some "statistics", level := none,
      message := "", fields := some [("rtt", .num 20)] },
    { logType := "network-messages", eventFamily := none, level := none,
      message := "", fields := some [("rpi", .num 10), ("lud", .num 1)] },
    { logType := "network-messages", eventFamily := none, level := none,
      message := "", fields := some [("rpi", .num 20), ("lud", .num 3)] } ]

/-- Witness for the amended C5: two rtt samples 10 and 20 average to 15; two
fully-numeric `network-messages` events give `samples = 2`, `rpiAvg` the mean
15 and `ludAvg` the mean 2. -/
theorem claim_C5_amended_witness :
    (foldNetwork netWitnessEvents).metrics.rttSamples = some 2
    ∧ (foldNetwork netWitnessEvents).metrics.rttAvg = some (JSNumber.val 15)
    ∧ (foldNetwork netWitnessEvents).metrics.samples = 2
    ∧ (foldNetwork netWitnessEvents).metrics.rpiAvg = some (JSNumber.val 15)
    ∧ (foldNetwork netWitnessEvents).metrics.ludAvg = some (JSNumber.val 2) := by
  have hnan : ∀ e ∈ netWitnessEvents, e.logType = "network-connection" →
      e.eventFamily = some "statistics" → getField e "rtt" ≠ JSValue.nan := by
    intro e he
    simp only [netWitnessEvents, List.mem_cons, List.not_mem_nil, or_false] at he
    rcases he with rfl | rfl | rfl | rfl <;> (intro h1 h2 hcon; cases hcon)
  have hall : ∀ e ∈ netWitnessEvents, e.logType = "network-messages" →
      (∃ q, getField e "rpi" = JSValue.num q) ∧ (∃ q, getField e "lud" = JSValue.num q) := by
    intro e he
    simp only [netWitnessEvents, List.mem_cons, List.not_mem_nil, or_false] at he
    rcases he with rfl | rfl | rfl | rfl <;> intro h1
    · simp at h1
    · simp at h1
    · exact ⟨⟨10, rfl⟩, ⟨1, rfl⟩⟩
    · exact ⟨⟨20, rfl⟩, ⟨3, rfl⟩⟩
  obtain ⟨h1, h2, h3, h4, h5⟩ := claim_C5_amended netWitnessEvents hnan hall
  have hrv : rttValues netWitnessEvents = [10, 20] := rfl
  have hpv : rpiValues netWitnessEvents = [10, 20] := rfl
  have hlv : ludValues netWitnessEvents = [1, 3] := rfl
  have hct : msgCount netWitnessEvents = 2 := rfl
  rw [hrv] at h1 h2
  rw [hct] at h3 h4 h5
  rw [hpv] at h4
  rw [hlv] at h5
  refine ⟨?_, ?_, h3, ?_, ?_⟩
  · rw [h1, if_neg (by simp)]
    rfl
  · rw [h2, if_neg (by simp)]
    norm_num
  · rw [h4, if_neg (by norm_num)]
    norm_num
  · rw [h5, if_neg (by norm_num)]
    norm_num

/-! ## Claim C3: quest status transition policy -/

/-- The status-transition policy as the claim states it: a status source
containing "completed" or equal to "success" sets "completed"; else one
containing "fail" sets "failed"; else one containing "start" or
"description" sets "started" only when the current status is "unknown". -/
def specQuestStatusStep (cur src : String) : String :=
  if strContains src "completed" || src == "success" then "completed"
  else if strContains src "fail" then "failed"
  else if strContains src "start" || strContains src "description" then
    (if cur == "unknown" then "started" else cur)
  else cur

theorem applyStatus_status (q : QuestStat) (src : String) :
    (applyStatus q src).status = specQuestStatusStep q.status src := by
  unfold applyStatus specQuestStatusStep
  by_cases h1 : (strContains src "completed" || src == "success") = true
  · simp [h1]
  · simp only [Bool.not_eq_true] at h1
    by_cases h2 : strContains src "fail" = true
    · simp [h1, h2]
    · simp only [Bool.not_eq_true] at h2
      by_cases h3 : (strContains src "start" || strContains src "description") = true
      · by_cases h4 : (q.status == "unknown") = true
        · simp [h1, h2, h3, h4]
        · simp only [Bool.not_eq_true] at h4
          simp [h1, h2, h3, h4]
      · simp only [Bool.not_eq_true] at h3
        simp [h1, h2, h3]

theorem applyRewards_status (e : LogEvent) (q q' : QuestStat)
    (h : applyRewards e q = .ok q') : q'.status = q.status := by
  unfold applyRewards at h
  cases hn : jsNumberOf (getField e "questRewardRubles") with
  | none =>
      rw [hn] at h
      dsimp only at h
      split at h
      · split at h
        · cases h; rfl
        · cases h
      · cases h; rfl
  | some x =>
      rw [hn] at h
      dsimp only at h
      split at h
      · split at h
        · cases h; rfl
        · cases h
      · cases h; rfl

theorem applyTrader_status (e : LogEvent) (q : QuestStat) (tr : List (String × ResolvedEntity)) :
    (applyTrader e q tr).1.status = q.status := by
  unfold applyTrader
  dsimp only
  split <;> rfl

theorem accumulateQuest_status_step (e : LogEvent) (qid : String)
    (qs qs' : List (String × QuestStat)) (tr tr' : List (String × ResolvedEntity))
    (hq : findQuestId e = some qid)
    (h : accumulateQuest e qs tr = .ok (qs', tr')) :
    ∃ src, statusSrc e = .ok src
      ∧ ((List.lookup qid qs').map QuestStat.status).getD "unknown"
          = specQuestStatusStep (((List.lookup qid qs).map QuestStat.status).getD "unknown") src
      ∧ (List.lookup qid qs').isSome := by
  unfold accumulateQuest at h
  rw [hq] at h
  dsimp only at h
  cases hs : statusSrc e with
  | error m => rw [hs] at h; cases h
  | ok src =>
      rw [hs] at h
      dsimp only at h
      refine ⟨src, rfl, ?_⟩
      split at h
      · cases h
      · rename_i q2 hr
        cases h
        constructor
        · rw [lookup_setAssoc_self]
          simp only [Option.map_some', Option.getD_some]
          rw [applyTrader_status, applyRewards_status e _ q2 hr, applyStatus_status]
          congr 1
          cases hlk : List.lookup qid qs with
          | none => simp [questDefault]
          | some q0 => simp
        · rw [lookup_setAssoc_self]; rfl

theorem accumulateQuest_fold_status (qid : String) (evs : List LogEvent) :
    ∀ (qs : List (String × QuestStat)) (tr : List (String × ResolvedEntity))
      (qs' : List (String × QuestStat)) (tr' : List (String × ResolvedEntity)),
      (∀ e ∈ evs, findQuestId e = some qid) →
      evs.foldlM (fun p e => accumulateQuest e p.1 p.2) (qs, tr) = .ok (qs', tr') →
      (((List.lookup qid qs').map QuestStat.status).getD "unknown"
          = evs.foldl (fun cur e => specQuestStatusStep cur ((statusSrc e).toOption.getD ""))
              (((List.lookup qid qs).map QuestStat.status).getD "unknown"))
      ∧ (((List.lookup qid qs).isSome ∨ evs ≠ []) → (List.lookup qid qs').isSome) := by
  induction evs with
  | nil =>
      intro qs tr qs' tr' hall h
      have : (qs, tr) = (qs', tr') := by
        simpa [List.foldlM, pure, Except.pure] using h
      cases this
      exact ⟨rfl, fun hc => by
        rcases hc with hc | hc
        · exact hc
        · exact absurd rfl hc⟩
  | cons e tl ih =>
      intro qs tr qs' tr' hall h
      rw [List.foldlM_cons] at h
      cases ha : accumulateQuest e qs tr with
      | error m => rw [ha] at h; exact absurd h (by simp [Bind.bind, Except.bind])
      | ok p1 =>
          rw [ha] at h
          have h2 : tl.foldlM (fun p e => accumulateQuest e p.1 p.2) p1 = .ok (qs', tr') := h
          obtain ⟨src, hsrc, hstep, hsome⟩ :=
            accumulateQuest_status_step e qid qs p1.1 tr p1.2 (hall e (by simp))
              (by rw [ha])
          obtain ⟨ih1, ih2⟩ := ih p1.1 p1.2 qs' tr' (fun x hx => hall x (by simp [hx])) h2
          constructor
          · rw [List.foldl_cons, ih1, hstep, hsrc]
            rfl
          · intro hc
            exact ih2 (Or.inl hsome)

/-- Claim C3: over any sequence of events that all resolve to one quest id,
a successful fold of `accumulateQuest` from the empty quest map leaves the
quest's status equal to the fold of the claimed transition policy
(`specQuestStatusStep`) over the per-event status sources (lower-cased
`questStatus` field if present, else lower-cased message); the quest record
exists after at least one event; and the policy never downgrades a quest
already "completed" or "failed" on a start/description source. -/
theorem claim_C3 (evs : List LogEvent) (qid : String)
    (qsF : List (String × QuestStat)) (trF : List (String × ResolvedEntity))
    (hall : ∀ e ∈ evs, findQuestId e = some qid)
    (hok : evs.foldlM (fun p e => accumulateQuest e p.1 p.2)
        (([] : List (String × QuestStat)), ([] : List (String × ResolvedEntity)))
      = .ok (qsF, trF)) :
    (((List.lookup qid qsF).map QuestStat.status).getD "unknown"
        = evs.foldl (fun cur e => specQuestStatusStep cur ((statusSrc e).toOption.getD ""))
            "unknown")
    ∧ (evs ≠ [] → (List.lookup qid qsF).isSome)
    ∧ (∀ cur src, (cur = "completed" ∨ cur = "failed") →
        strContains src "completed" = false → src ≠ "success" → strContains src "fail" = false →
        specQuestStatusStep cur src = cur) := by
  obtain ⟨h1, h2⟩ := accumulateQuest_fold_status qid evs [] [] qsF trF hall hok
  refine ⟨by simpa using h1, fun hne => h2 (Or.inr hne), ?_⟩
  intro cur src hcur hc1 hc2 hc3
  have hb : (src == "success") = false := by simp [hc2]
  unfold specQuestStatusStep
  rw [hc1, hb, hc3]
  simp only [Bool.or_self, Bool.false_eq_true, if_false]
  have hcu : (cur == "unknown") = false := by
    rcases hcur with rfl | rfl <;> simp
  rw [hcu]
  split <;> rfl

/-- Scenario D events: a description event, a `questStatus: "Completed"`
event, then another start-matching event, all for quest id "q1". -/
def questScenarioEvents : List LogEvent :=
  [ { logType := "application", eventFamily := none, level := none,
      message := "quest description", fields := some [("questId", .str "q1")] },
    { logType := "application", eventFamily := none, level := none,
      message := "", fields := some [("questId", .str "q1"), ("questStatus", .str "Completed")] },
    { logType := "application", eventFamily := none, level := none,
      message := "quest start again", fields := some [("questId", .str "q1")] } ]

def questScenarioFold : Except String (List (String × QuestStat) × List (String × ResolvedEntity)) :=
  questScenarioEvents.foldlM (fun p e => accumulateQuest e p.1 p.2) ([], [])

/-- Witness for C3 at Scenario D: the final status is "completed" and is not
reverted by the later start-matching event. -/
theorem claim_C3_witness :
    questScenarioFold = Except.ok (okValue questScenarioFold ([], []))
    ∧ ((List.lookup "q1" (okValue questScenarioFold ([], [])).1).map QuestStat.status).getD "unknown"
        = "completed"
    ∧ (List.lookup "q1" (okValue questScenarioFold ([], [])).1).isSome := by
  have h1 : questScenarioFold = Except.ok (okValue questScenarioFold ([], [])) := rfl
  have hall : ∀ e ∈ questScenarioEvents, findQuestId e = some "q1" := by decide
  obtain ⟨hs, hp, -⟩ := claim_C3 questScenarioEvents "q1"
    (okValue questScenarioFold ([], [])).1 (okValue questScenarioFold ([], [])).2 hall
    (by rw [← h1]; rfl)
  refine ⟨h1, ?_, hp (by simp [questScenarioEvents])⟩
  rw [hs]
  decide

/-! ## Parse worker pool (`src/lib/ingest/parseWorkerPool.ts`)

The pool's bookkeeping (`workers`, `availableWorkers`, `pendingTasks`,
`taskMap`, `isTerminated`) is embedded as an explicit state; worker replies
arrive asynchronously, which is modelled by a schedule: a list of worker ids
in completion order, each delivering its `onmessage` event.  Promise
resolutions are recorded in arrival order in `resolved`. -/

structure ParseTask where
  id : String
  fileName : String
  content : String
deriving DecidableEq, Repr

structure ParseResult where
  id : String
  success : Bool
  result : Option ParsedLogResult
  error : Option String

/-- The worker's `onmessage` handler (the web-worker source embedded in
`src/lib/logs/index.ts`, second document), combined with the pool's
resolution of its reply: on a `{type:"parse", id, fileName, content}`
message — the only kind the pool posts — the worker runs
`parseText(fileName, content)` and posts `{type:"result", id, result}`,
which the pool resolves as `{id, success:true, result}`; when `parseText`
throws it posts `{type:"error", id, error}` with the thrown `Error`'s
message (or "Unknown parsing error" for a non-`Error` throw), resolved as
`{id, success:false, error}`.  `parseText` is the external log parser
(spec section 6, an opaque collaborator): `.ok` a parsed result,
`.error (some msg)` a thrown `Error` carrying `msg`, `.error none` a thrown
non-`Error` value. -/
def workerReply (parseText : String → String → Except (Option String) ParsedLogResult)
    (t : ParseTask) : ParseResult :=
  match parseText t.fileName t.content with
  | .ok result => { id := t.id, success := true, result := some result, error := none }
  | .error e =>
      { id := t.id, success := false, result := none
        error := some (e.getD "Unknown parsing error") }

/-- The pool bookkeeping state.  `busy` records which task each dispatched
worker is processing (implicit in JS in the `postMessage` sent to the
worker); `resolved` records the promise resolutions in completion order. -/
structure PoolState where
  workers : List ℕ
  availableWorkers : List ℕ
  pendingTasks : List ParseTask
  taskMap : List (String × ParseTask)
  busy : List (ℕ × ParseTask)
  isTerminated : Bool
  resolved : List ParseResult

/-- A freshly constructed pool of `n` workers (constructor + `initWorkers`). -/
def mkPool (n : ℕ) : PoolState :=
  { workers := List.range n
    availableWorkers := List.range n
    pendingTasks := []
    taskMap := []
    busy := []
    isTerminated := false
    resolved := [] }

/-- `availableWorkers.pop()`: removes and returns the last element. -/
def popLast : List ℕ → Option (List ℕ × ℕ)
  | [] => none
  | [a] => some ([], a)
  | a :: b :: t =>
      match popLast (b :: t) with
      | some (ws, w) => some (a :: ws, w)
      | none => none

/-- `processNextTask`: if not terminated and both a pending task and an idle
worker exist, shift the first pending task, pop the last idle worker,
correlate the task id in `taskMap` and post the task to the worker. -/
def processNextTask (st : PoolState) : PoolState :=
  if st.isTerminated then st
  else
    match st.pendingTasks with
    | [] => st
    | t :: rest =>
        match popLast st.availableWorkers with
        | none => st
        | some (ws, w) =>
            { st with
              pendingTasks := rest
              availableWorkers := ws
              taskMap := setAssoc st.taskMap t.id t
              busy := st.busy ++ [(w, t)] }

/-- The outcome of a `parse` call: either an immediately-resolved promise or
a queued pending promise. -/
inductive SubmitOutcome where
  | immediate (r : ParseResult)
  | queued

/-- `ParseWorkerPool.parse`: on a terminated pool, resolve immediately with
a failure result; otherwise queue the task and run the dispatcher. -/
def parse (st : PoolState) (t : ParseTask) : PoolState × SubmitOutcome :=
  if st.isTerminated then
    (st, .immediate { id := t.id, success := false, result := none
                      error := some "Worker pool has been terminated" })
  else
    (processNextTask { st with pendingTasks := st.pendingTasks ++ [t] }, .queued)

/-- `ParseWorkerPool.getStatus`. -/
structure PoolStatus where
  totalWorkers : ℕ
  availableWorkers : ℕ
  pendingTasks : ℕ
  isTerminated : Bool
deriving DecidableEq, Repr

def getStatus (st : PoolState) : PoolStatus :=
  { totalWorkers := st.workers.length
    availableWorkers := st.availableWorkers.length
    pendingTasks := st.pendingTasks.length
    isTerminated := st.isTerminated }

/-- Remove the first association with the given key (`taskMap.delete(id)`). -/
def removeAssoc {α : Type} : List (String × α) → String → List (String × α)
  | [], _ => []
  | (k', v') :: rest, k => if k' == k then rest else (k', v') :: removeAssoc rest k

/-- Find the first busy entry of worker `w` and remove it. -/
def takeBusy : List (ℕ × ParseTask) → ℕ → Option (ParseTask × List (ℕ × ParseTask))
  | [], _ => none
  | (w', t) :: rest, w =>
      if w' = w then some (t, rest)
      else
        match takeBusy rest w with
        | none => none
        | some (t', rest') => some (t', (w', t) :: rest')

/-- The `onmessage` handler for a reply from worker `w`: look the id up in
`taskMap`; if found, delete it and resolve the pending promise with the
reply; then return the worker to the idle pool and dispatch the next task. -/
def workerMessage (parseText : String → String → Except (Option String) ParsedLogResult) (st : PoolState) (w : ℕ) : PoolState :=
  match takeBusy st.busy w with
  | none => st
  | some (t, busyRest) =>
      let reply := workerReply parseText t
      let st1 :=
        match List.lookup reply.id st.taskMap with
        | some _ =>
            { st with
              taskMap := removeAssoc st.taskMap reply.id
              resolved := st.resolved ++ [reply]
              busy := busyRest }
        | none => { st with busy := busyRest }
      let st2 := { st1 with availableWorkers := st1.availableWorkers ++ [w] }
      processNextTask st2

/-- Submit a batch in order (`tasks.map((task) => this.parse(task))`),
collecting each call's outcome in submission order. -/
def submitAll (st : PoolState) : List ParseTask → PoolState × List (ParseTask × SubmitOutcome)
  | [] => (st, [])
  | t :: ts =>
      let pr := parse st t
      let rest := submitAll pr.1 ts
      (rest.1, (t, pr.2) :: rest.2)

/-- Run a completion schedule: deliver one worker reply per entry. -/
def runPool (parseText : String → String → Except (Option String) ParsedLogResult) (st : PoolState) (sched : List ℕ) : PoolState :=
  sched.foldl (workerMessage parseText) st

/-- The first resolution recorded for a task id (a JS promise resolves at
most once; under distinct ids there is at most one). -/
def lookupResolved (resolved : List ParseResult) (id : String) : Option ParseResult :=
  resolved.find? (fun r => r.id == id)

/-- `parseAll`: submit every task, let the workers complete according to the
schedule, and collect the per-task results in input order (`Promise.all`
preserves the positions of `tasks.map`). -/
def parseAll (parseText : String → String → Except (Option String) ParsedLogResult) (st : PoolState) (tasks : List ParseTask)
    (sched : List ℕ) : PoolState × List (Option ParseResult) :=
  let sub := submitAll st tasks
  let fin := runPool parseText sub.1 sched
  (fin, sub.2.map (fun p =>
    match p.2 with
    | .immediate r => some r
    | .queued => lookupResolved fin.resolved p.1.id))

/-! ## Claims C8 and C9: submission to a terminated pool -/

/-- Claim C8: `parse` is a total function (it never throws synchronously),
and on a terminated pool it returns immediately — without touching the
state — a resolved failure result carrying the task id and the descriptive
message "Worker pool has been terminated". -/
theorem claim_C8 (st : PoolState) (t : ParseTask) (h : st.isTerminated = true) :
    parse st t = (st, .immediate
      { id := t.id, success := false, result := none
        error := some "Worker pool has been terminated" }) := by
  simp [parse, h]

def terminatedPoolA : PoolState :=
  { workers := [], availableWorkers := [], pendingTasks := [], taskMap := []
    busy := [], isTerminated := true, resolved := [] }

/-- Witness for C8 on a concrete terminated pool. -/
theorem claim_C8_witness :
    parse terminatedPoolA { id := "t1", fileName := "a.log", content := "x" }
      = (terminatedPoolA, .immediate
          { id := "t1", success := false, result := none
            error := some "Worker pool has been terminated" }) :=
  claim_C8 terminatedPoolA _ rfl

/-- Claim C9: a failed submission to a terminated pool leaves every piece of
pool bookkeeping unchanged, so `getStatus` is unchanged too. -/
theorem claim_C9 (st : PoolState) (t : ParseTask) (h : st.isTerminated = true) :
    (parse st t).1 = st
    ∧ (parse st t).1.pendingTasks = st.pendingTasks
    ∧ (parse st t).1.taskMap = st.taskMap
    ∧ (parse st t).1.workers = st.workers
    ∧ (parse st t).1.availableWorkers = st.availableWorkers
    ∧ getStatus (parse st t).1 = getStatus st := by
  simp [parse, h]

def terminatedPoolB : PoolState :=
  { workers := [7], availableWorkers := [7], pendingTasks := [], taskMap := []
    busy := [], isTerminated := true, resolved := [] }

/-- Witness for C9 on a concrete terminated pool with one worker. -/
theorem claim_C9_witness :
    (parse terminatedPoolB { id := "t9", fileName := "b.log", content := "y" }).1
        = terminatedPoolB
    ∧ getStatus (parse terminatedPoolB { id := "t9", fileName := "b.log", content := "y" }).1
        = getStatus terminatedPoolB := by
  obtain ⟨h1, -, -, -, -, h6⟩ :=
    claim_C9 terminatedPoolB { id := "t9", fileName := "b.log", content := "y" } rfl
  exact ⟨h1, h6⟩

/-! ## Claim C7: batch submission invariants -/

theorem popLast_spec (l ws : List ℕ) (w : ℕ) (h : popLast l = some (ws, w)) :
    l = ws ++ [w] := by
  induction l generalizing ws with
  | nil => cases h
  | cons a t ih =>
      cases t with
      | nil =>
          simp only [popLast] at h
          cases h
          rfl
      | cons b t2 =>
          simp only [popLast] at h
          cases hp : popLast (b :: t2) with
          | none => rw [hp] at h; cases h
          | some p =>
              rw [hp] at h
              obtain ⟨ws1, w1⟩ := p
              cases h
              rw [List.cons_append]
              congr 1
              exact ih ws1 hp

theorem setAssoc_of_not_mem {α : Type} (l : List (String × α)) (k : String) (v : α)
    (h : ∀ p ∈ l, p.1 ≠ k) : setAssoc l k v = l ++ [(k, v)] := by
  induction l with
  | nil => rfl
  | cons hd tl ih =>
      have hk : (hd.1 == k) = false := by simp [h hd (by simp)]
      obtain ⟨k', v'⟩ := hd
      simp only [setAssoc, hk, Bool.false_eq_true, if_false, List.cons_append]
      congr 1
      exact ih (fun p hp => h p (by simp [hp]))

theorem lookup_append_mid {α : Type} (l1 l2 : List (String × α)) (k : String) (v : α)
    (h : ∀ p ∈ l1, p.1 ≠ k) : List.lookup k (l1 ++ (k, v) :: l2) = some v := by
  induction l1 with
  | nil => simp [List.lookup]
  | cons hd tl ih =>
      have hk : (k == hd.1) = false := by
        have := h hd (by simp)
        simp [Ne.symm this]
      simp only [List.cons_append, List.lookup, hk]
      exact ih (fun p hp => h p (by simp [hp]))

theorem removeAssoc_append_mid {α : Type} (l1 l2 : List (String × α)) (k : String) (v : α)
    (h : ∀ p ∈ l1, p.1 ≠ k) : removeAssoc (l1 ++ (k, v) :: l2) k = l1 ++ l2 := by
  induction l1 with
  | nil => simp [removeAssoc]
  | cons hd tl ih =>
      have hk : (hd.1 == k) = false := by simp [h hd (by simp)]
      obtain ⟨k', v'⟩ := hd
      simp only [List.cons_append, removeAssoc, hk, Bool.false_eq_true, if_false]
      congr 1
      exact ih (fun p hp => h p (by simp [hp]))

theorem takeBusy_spec (l : List (ℕ × ParseTask)) (w : ℕ) (t : ParseTask)
    (rest : List (ℕ × ParseTask)) (h : takeBusy l w = some (t, rest)) :
    ∃ b1 b2, l = b1 ++ (w, t) :: b2 ∧ rest = b1 ++ b2 ∧ ∀ p ∈ b1, p.1 ≠ w := by
  induction l generalizing rest with
  | nil => cases h
  | cons hd tl ih =>
      obtain ⟨w', t'⟩ := hd
      by_cases hw : w' = w
      · subst hw
        simp only [takeBusy, if_pos rfl] at h
        cases h
        exact ⟨[], tl, rfl, rfl, by simp⟩
      · simp only [takeBusy, if_neg hw] at h
        cases htb : takeBusy tl w with
        | none => rw [htb] at h; cases h
        | some p =>
            rw [htb] at h
            obtain ⟨t1, rest1⟩ := p
            cases h
            obtain ⟨b1, b2, he, hr, hb⟩ := ih rest1 htb
            exact ⟨(w', t') :: b1, b2, by rw [he]; rfl, by rw [hr]; rfl,
              fun p hp => by
                rcases List.mem_cons.mp hp with rfl | hp2
                · exact hw
                · exact hb p hp2⟩

/-- The bookkeeping invariant of a pool processing a batch `tasks`:
the pool is live; every submitted task id is in exactly one of the pending
queue, the busy set or the resolved list; `taskMap` mirrors the busy set;
every resolution is the worker reply for one of the tasks; and no worker is
simultaneously idle and busy (or busy twice). -/
structure PoolInv (parseText : String → String → Except (Option String) ParsedLogResult) (tasks : List ParseTask)
    (st : PoolState) : Prop where
  term : st.isTerminated = false
  perm : (st.pendingTasks.map ParseTask.id ++ st.busy.map (fun p => p.2.id)
      ++ st.resolved.map ParseResult.id).Perm (tasks.map ParseTask.id)
  pendingMem : ∀ t ∈ st.pendingTasks, t ∈ tasks
  busyMem : ∀ p ∈ st.busy, p.2 ∈ tasks
  resOk : ∀ r ∈ st.resolved, ∃ t ∈ tasks, r = workerReply parseText t
  tmap : st.taskMap = st.busy.map (fun p => (p.2.id, p.2))
  wnodup : (st.availableWorkers ++ st.busy.map (fun p => p.1)).Nodup

theorem workerReply_id (parseText : String → String → Except (Option String) ParsedLogResult) (t : ParseTask) :
    (workerReply parseText t).id = t.id := by
  unfold workerReply
  cases parseText t.fileName t.content <;> rfl

theorem workerReply_success (parseText : String → String → Except (Option String) ParsedLogResult) (t : ParseTask) :
    (workerReply parseText t).success = (parseText t.fileName t.content).isOk := by
  unfold workerReply
  cases parseText t.fileName t.content <;> rfl

theorem poolInv_init (parseText : String → String → Except (Option String) ParsedLogResult) (n : ℕ) :
    PoolInv parseText [] (mkPool n) := by
  refine ⟨rfl, by simp [mkPool], ?_, ?_, ?_, rfl, ?_⟩ <;> simp [mkPool, List.nodup_range]

/-- The combined id list of an invariant state is nodup when the batch ids
are. -/
theorem poolInv_ids_nodup {parseText : String → String → Except (Option String) ParsedLogResult} {tasks : List ParseTask}
    {st : PoolState} (inv : PoolInv parseText tasks st)
    (hnd : (tasks.map ParseTask.id).Nodup) :
    (st.pendingTasks.map ParseTask.id ++ st.busy.map (fun p => p.2.id)
      ++ st.resolved.map ParseResult.id).Nodup :=
  inv.perm.nodup_iff.mpr hnd

theorem processNextTask_inv {parseText : String → String → Except (Option String) ParsedLogResult} {tasks : List ParseTask}
    {st : PoolState} (inv : PoolInv parseText tasks st)
    (hnd : (tasks.map ParseTask.id).Nodup) :
    PoolInv parseText tasks (processNextTask st) := by
  unfold processNextTask
  rw [inv.term]
  simp only [Bool.false_eq_true, if_false]
  cases hp : st.pendingTasks with
  | nil => exact inv
  | cons t rest =>
      cases hw : popLast st.availableWorkers with
      | none => exact inv
      | some p =>
          obtain ⟨ws, w⟩ := p
          dsimp only
          have hav : st.availableWorkers = ws ++ [w] := popLast_spec _ _ _ hw
          have hids := poolInv_ids_nodup inv hnd
          rw [hp] at hids
          have htb : ∀ q ∈ st.busy, q.2.id ≠ t.id := by
            intro q hq he
            simp only [List.map_cons, List.cons_append, List.nodup_cons] at hids
            exact hids.1 (by
              simp only [List.mem_append]
              left; right
              exact List.mem_map.mpr ⟨q, hq, he⟩)
          refine ⟨rfl, ?_, ?_, ?_, inv.resOk, ?_, ?_⟩
          · refine List.perm_iff_count.mpr (fun x => ?_)
            have hc := inv.perm.count_eq x
            rw [hp] at hc
            simp only [List.map_append, List.map_cons, List.count_append, List.count_cons,
              List.map_nil, List.count_nil, List.cons_append] at hc ⊢
            omega
          · intro x hx
            apply inv.pendingMem
            rw [hp]
            exact List.mem_cons_of_mem _ hx
          · intro q hq
            rcases List.mem_append.mp hq with hq1 | hq2
            · exact inv.busyMem q hq1
            · have hqe : q = (w, t) := by simpa using hq2
              subst hqe
              apply inv.pendingMem
              rw [hp]
              exact List.mem_cons_self _ _
          · rw [inv.tmap]
            rw [setAssoc_of_not_mem]
            · simp
            · intro pr hpr
              obtain ⟨q, hq, hqe⟩ := List.mem_map.mp hpr
              rw [← hqe]
              exact htb q hq
          · have hav2 := inv.wnodup
            rw [hav] at hav2
            simp only [List.map_append, List.map_cons, List.map_nil]
            have hpm : (ws ++ (st.busy.map (fun p => p.1) ++ [w])).Perm
                (ws ++ [w] ++ st.busy.map (fun p => p.1)) := by
              refine List.perm_iff_count.mpr (fun x => ?_)
              simp only [List.count_append, List.count_cons, List.count_nil]
              omega
            exact hpm.nodup_iff.mpr hav2

theorem parse_inv {parseText : String → String → Except (Option String) ParsedLogResult} {tasks : List ParseTask}
    {st : PoolState} (inv : PoolInv parseText tasks st) (t : ParseTask)
    (hnd : ((tasks ++ [t]).map ParseTask.id).Nodup) :
    PoolInv parseText (tasks ++ [t]) (parse st t).1 ∧ (parse st t).2 = .queued := by
  unfold parse
  rw [inv.term]
  simp only [Bool.false_eq_true, if_false]
  refine ⟨?_, by trivial⟩
  apply processNextTask_inv _ hnd
  refine ⟨rfl, ?_, ?_, ?_, ?_, inv.tmap, inv.wnodup⟩
  · refine List.perm_iff_count.mpr (fun x => ?_)
    have hc := inv.perm.count_eq x
    simp only [List.map_append, List.map_cons, List.map_nil, List.count_append,
      List.count_cons, List.count_nil] at hc ⊢
    omega
  · intro x hx
    rcases List.mem_append.mp hx with hx1 | hx2
    · exact List.mem_append_left _ (inv.pendingMem x hx1)
    · exact List.mem_append_right _ hx2
  · intro q hq
    exact List.mem_append_left _ (inv.busyMem q hq)
  · intro r hr
    obtain ⟨t', ht', he⟩ := inv.resOk r hr
    exact ⟨t', List.mem_append_left _ ht', he⟩

theorem workerMessage_inv {parseText : String → String → Except (Option String) ParsedLogResult} {tasks : List ParseTask}
    {st : PoolState} (inv : PoolInv parseText tasks st)
    (hnd : (tasks.map ParseTask.id).Nodup) (w : ℕ) :
    PoolInv parseText tasks (workerMessage parseText st w) := by
  unfold workerMessage
  cases htb : takeBusy st.busy w with
  | none => exact inv
  | some p =>
      obtain ⟨t, busyRest⟩ := p
      obtain ⟨b1, b2, hbusy, hrest, hb1⟩ := takeBusy_spec _ _ _ _ htb
      subst hrest
      dsimp only
      have hids := poolInv_ids_nodup inv hnd
      rw [hbusy] at hids
      have hb1id : ∀ pr ∈ b1.map (fun p => (p.2.id, p.2)), pr.1 ≠ t.id := by
        intro pr hpr
        obtain ⟨q, hq, hqe⟩ := List.mem_map.mp hpr
        rw [← hqe]
        intro he
        have hcle := List.nodup_iff_count_le_one.mp hids t.id
        have hmem : t.id ∈ b1.map (fun p => p.2.id) := List.mem_map.mpr ⟨q, hq, he⟩
        have hpos : 0 < (b1.map (fun p => p.2.id)).count t.id := by
          rw [List.count_pos_iff]
          exact hmem
        simp only [List.map_append, List.map_cons, List.count_append,
          List.count_cons_self] at hcle
        omega
      have htm : st.taskMap = b1.map (fun p => (p.2.id, p.2))
          ++ (t.id, t) :: b2.map (fun p => (p.2.id, p.2)) := by
        rw [inv.tmap, hbusy]
        simp
      have hlk : List.lookup (workerReply parseText t).id st.taskMap = some t := by
        rw [workerReply_id, htm]
        exact lookup_append_mid _ _ _ _ hb1id
      rw [hlk]
      dsimp only
      have htmem : t ∈ tasks := inv.busyMem (w, t) (by rw [hbusy]; simp)
      apply processNextTask_inv _ hnd
      refine ⟨inv.term, ?_, inv.pendingMem, ?_, ?_, ?_, ?_⟩
      · refine List.perm_iff_count.mpr (fun x => ?_)
        have hc := inv.perm.count_eq x
        rw [hbusy] at hc
        simp only [List.map_append, List.map_cons, List.map_nil, List.count_append,
          List.count_cons, List.count_nil, workerReply_id] at hc ⊢
        omega
      · intro q hq
        apply inv.busyMem
        rw [hbusy]
        rcases List.mem_append.mp hq with h | h
        · exact List.mem_append_left _ h
        · exact List.mem_append_right _ (List.mem_cons_of_mem _ h)
      · intro r hr
        rcases List.mem_append.mp hr with h | h
        · exact inv.resOk r h
        · have : r = workerReply parseText t := by simpa using h
          exact ⟨t, htmem, this⟩
      · rw [workerReply_id, htm, removeAssoc_append_mid _ _ _ _ hb1id]
        simp
      · have hav2 := inv.wnodup
        rw [hbusy] at hav2
        have hpm : (st.availableWorkers ++ [w] ++ (b1 ++ b2).map (fun p => p.1)).Perm
            (st.availableWorkers ++ (b1 ++ (w, t) :: b2).map (fun p => p.1)) := by
          refine List.perm_iff_count.mpr (fun x => ?_)
          simp only [List.map_append, List.map_cons, List.count_append, List.count_cons,
            List.count_nil]
          omega
        exact hpm.nodup_iff.mpr hav2

theorem runPool_inv {parseText : String → String → Except (Option String) ParsedLogResult} {tasks : List ParseTask}
    (sched : List ℕ) :
    ∀ {st : PoolState}, PoolInv parseText tasks st → (tasks.map ParseTask.id).Nodup →
      PoolInv parseText tasks (runPool parseText st sched) := by
  induction sched with
  | nil => intro st inv hnd; exact inv
  | cons w ws ih =>
      intro st inv hnd
      exact ih (workerMessage_inv inv hnd w) hnd

theorem submitAll_inv {parseText : String → String → Except (Option String) ParsedLogResult} (ts : List ParseTask) :
    ∀ (tasks0 : List ParseTask) (st : PoolState), PoolInv parseText tasks0 st →
      ((tasks0 ++ ts).map ParseTask.id).Nodup →
      PoolInv parseText (tasks0 ++ ts) (submitAll st ts).1
      ∧ (submitAll st ts).2 = ts.map (fun t => (t, SubmitOutcome.queued)) := by
  induction ts with
  | nil =>
      intro tasks0 st inv hnd
      rw [List.append_nil] at hnd ⊢
      exact ⟨inv, rfl⟩
  | cons t ts ih =>
      intro tasks0 st inv hnd
      have hnd1 : ((tasks0 ++ [t]).map ParseTask.id).Nodup := by
        refine List.Nodup.sublist (List.Sublist.map _ ?_) hnd
        refine List.Sublist.append_left ?_ _
        simp [List.nil_sublist]
      obtain ⟨inv1, hq⟩ := parse_inv inv t hnd1
      have hnd2 : (((tasks0 ++ [t]) ++ ts).map ParseTask.id).Nodup := by
        rw [List.append_assoc]
        simpa using hnd
      obtain ⟨inv2, hout⟩ := ih (tasks0 ++ [t]) (parse st t).1 inv1 hnd2
      rw [List.append_assoc] at inv2
      simp only [List.singleton_append] at inv2
      constructor
      · show PoolInv parseText (tasks0 ++ t :: ts) (submitAll (parse st t).1 ts).1
        exact inv2
      · show (t, (parse st t).2) :: (submitAll (parse st t).1 ts).2 = _
        rw [hq, hout]
        rfl

theorem filterMap_id_map_some {α β : Type} (f : α → β) (l : List α) :
    (l.map (fun a => some (f a))).filterMap id = l.map f := by
  induction l with
  | nil => rfl
  | cons a t ih => simp only [List.map_cons, List.filterMap_cons, id, ih]

theorem countP_bool_split {α : Type} (p : α → Bool) (l : List α) :
    l.countP p + l.countP (fun a => !(p a)) = l.length := by
  induction l with
  | nil => rfl
  | cons a t ih =>
      by_cases h : p a = true <;>
        simp only [List.countP_cons, h, Bool.not_true, Bool.not_false, List.length_cons,
          Bool.false_eq_true, if_false, if_true] <;>
        omega

theorem countP_map_fn {α β : Type} (p : β → Bool) (f : α → β) (l : List α) :
    (l.map f).countP p = l.countP (fun a => p (f a)) := by
  induction l with
  | nil => rfl
  | cons a t ih => simp only [List.map_cons, List.countP_cons, ih]

/-- Claim C7: starting from a fresh pool, submit a batch of tasks with
distinct ids and let the workers complete in an arbitrary order (any
schedule).  Once every task has settled (nothing pending, nothing busy —
`Promise.all` resolves only then), the collected result list has exactly one
entry per task, in input order regardless of completion order, each the
worker reply for its task; when exactly one task's content fails parsing,
exactly one result has `success = false` and the other `tasks.length - 1`
have `success = true`. -/
theorem claim_C7 (parseText : String → String → Except (Option String) ParsedLogResult) (n : ℕ) (tasks : List ParseTask)
    (sched : List ℕ) (hnd : (tasks.map ParseTask.id).Nodup)
    (hset1 : (parseAll parseText (mkPool n) tasks sched).1.pendingTasks = [])
    (hset2 : (parseAll parseText (mkPool n) tasks sched).1.busy = []) :
    (parseAll parseText (mkPool n) tasks sched).2
        = tasks.map (fun t => some (workerReply parseText t))
    ∧ (tasks.countP (fun t => !(parseText t.fileName t.content).isOk) = 1 →
        ((parseAll parseText (mkPool n) tasks sched).2.filterMap id).countP
            (fun r => r.success == false) = 1
        ∧ ((parseAll parseText (mkPool n) tasks sched).2.filterMap id).countP
            (fun r => r.success == true) = tasks.length - 1) := by
  obtain ⟨invS, hout⟩ := submitAll_inv tasks [] (mkPool n) (poolInv_init parseText n)
    (by simpa using hnd)
  have invS2 : PoolInv parseText tasks (submitAll (mkPool n) tasks).1 := invS
  have invF := runPool_inv sched invS2 hnd
  have hfin : (parseAll parseText (mkPool n) tasks sched).1
      = runPool parseText (submitAll (mkPool n) tasks).1 sched := rfl
  rw [hfin] at hset1 hset2
  have hperm := invF.perm
  rw [hset1, hset2] at hperm
  simp only [List.map_nil, List.nil_append] at hperm
  have hlook : ∀ t ∈ tasks,
      lookupResolved (runPool parseText (submitAll (mkPool n) tasks).1 sched).resolved t.id
        = some (workerReply parseText t) := by
    intro t ht
    have hmemid : t.id ∈ (runPool parseText (submitAll (mkPool n) tasks).1 sched).resolved.map
        ParseResult.id :=
      hperm.mem_iff.mpr (List.mem_map.mpr ⟨t, ht, rfl⟩)
    unfold lookupResolved
    cases hf : List.find? (fun r => r.id == t.id)
        (runPool parseText (submitAll (mkPool n) tasks).1 sched).resolved with
    | none =>
        exfalso
        obtain ⟨r, hr, hre⟩ := List.mem_map.mp hmemid
        have := List.find?_eq_none.mp hf r hr
        simp [hre] at this
    | some r =>
        have hrmem := List.mem_of_find?_eq_some hf
        have hrid : r.id = t.id := by
          have := List.find?_some hf
          simpa using this
        obtain ⟨t', ht', hre⟩ := invF.resOk r hrmem
        have hteq : t' = t := by
          apply List.inj_on_of_nodup_map hnd ht' ht
          rw [← workerReply_id parseText t', ← hre, hrid]
        subst hteq
        rw [hre]
  have hmain : (parseAll parseText (mkPool n) tasks sched).2
      = tasks.map (fun t => some (workerReply parseText t)) := by
    show (submitAll (mkPool n) tasks).2.map _ = _
    rw [hout, List.map_map]
    refine List.map_congr_left (fun t ht => ?_)
    show lookupResolved _ t.id = _
    exact hlook t ht
  refine ⟨hmain, fun h1 => ?_⟩
  rw [hmain]
  have hfm : (tasks.map (fun t => some (workerReply parseText t))).filterMap id
      = tasks.map (fun t => workerReply parseText t) := filterMap_id_map_some _ _
  rw [hfm]
  have hcnt : ∀ (p : ParseResult → Bool),
      (tasks.map (fun t => workerReply parseText t)).countP p
        = tasks.countP (fun t => p (workerReply parseText t)) :=
    fun p => countP_map_fn p _ tasks
  constructor
  · rw [hcnt]
    rw [← h1]
    refine List.countP_congr (fun t ht => ?_)
    rw [workerReply_success]
    cases parseText t.fileName t.content <;> rfl
  · rw [hcnt]
    have hpt : ∀ t : ParseTask,
        (!((workerReply parseText t).success == true))
          = !(parseText t.fileName t.content).isOk := by
      intro t
      rw [workerReply_success]
      cases parseText t.fileName t.content <;> rfl
    have hsplit := countP_bool_split (fun t => (workerReply parseText t).success == true) tasks
    have hcc : tasks.countP (fun t => !((workerReply parseText t).success == true))
        = tasks.countP (fun t => !(parseText t.fileName t.content).isOk) :=
      List.countP_congr (fun t ht => by rw [hpt t])
    omega

/-- A concrete external parser for the witness: the content "bad" throws an
`Error` whose message is "unrecognized log format", anything else parses to
an empty application-log result. -/
def witnessParseText : String → String → Except (Option String) ParsedLogResult :=
  fun fileName content =>
    if content == "bad" then .error (some "unrecognized log format")
    else .ok { filePath := some fileName, logType := "application", events := [], meta := emptyMeta }

def witnessTasks : List ParseTask :=
  [ { id := "t1", fileName := "f1.log", content := "ok1" },
    { id := "t2", fileName := "f2.log", content := "bad" },
    { id := "t3", fileName := "f3.log", content := "ok3" } ]

def witnessSched : List ℕ := [1, 0, 1]

/-- Witness for C7: 3 tasks on a pool of 2 workers with an out-of-order
completion schedule settle completely; the results arrive in input order and
exactly the one failing task (content "bad") yields `success = false`. -/
theorem claim_C7_witness :
    (parseAll witnessParseText (mkPool 2) witnessTasks witnessSched).1.pendingTasks = []
    ∧ (parseAll witnessParseText (mkPool 2) witnessTasks witnessSched).1.busy = []
    ∧ (parseAll witnessParseText (mkPool 2) witnessTasks witnessSched).2
        = witnessTasks.map (fun t => some (workerReply witnessParseText t))
    ∧ ((parseAll witnessParseText (mkPool 2) witnessTasks witnessSched).2.filterMap id).countP
        (fun r => r.success == false) = 1 := by
  have h1 : (parseAll witnessParseText (mkPool 2) witnessTasks witnessSched).1.pendingTasks = [] := by
    decide
  have h2 : (parseAll witnessParseText (mkPool 2) witnessTasks witnessSched).1.busy = [] := by
    decide
  have hnd : (witnessTasks.map ParseTask.id).Nodup := by decide
  obtain ⟨hm, hcnt⟩ := claim_C7 witnessParseText 2 witnessTasks witnessSched hnd h1 h2
  exact ⟨h1, h2, hm, (hcnt (by decide)).1⟩
